import Mathlib

/-!
Verification development for the streaming conversation reducer of the
atlas-assistant client: a shallow embedding of `src/client/utils/chat.ts`,
the `handleEvent` reducer of `src/client/hooks/useChatPage.ts`, and the
NDJSON stream-reading loop of `src/client/services/chat.ts`, together with
theorems about the properties stated in the specification.

Modelling conventions:
- JavaScript `unknown` values are modelled by the inductive type `Value`
  (JSON trees plus `undefined`); `Value.undef` stands both for `undefined`
  and for an absent optional field.
- JavaScript strings are modelled by Lean `String` (code-point rather than
  UTF-16 indexing; all claims concern ASCII data).
- `JSON.parse` is modelled by `jsonParse`, restricted to integer numerals
  (fractional and exponent forms, like all floating point, are outside the
  scope of this model); `JSON.stringify` by `jsonStringify` /
  `jsonStringifyIndent`.
- Loops whose termination is by index progress are realised with an explicit
  fuel argument that provably dominates the iteration count.
-/

/-- Model of a JavaScript runtime value as received from JSON decoding:
`undef` stands for `undefined` (and for an absent field), the remaining
constructors mirror the JSON data model with integer numerals. -/
inductive Value where
  | undef : Value
  | null : Value
  | bool (b : Bool) : Value
  | num (n : Int) : Value
  | str (s : String) : Value
  | arr (elems : List Value) : Value
  | obj (fields : List (String × Value)) : Value

/-- JavaScript truthiness of a value (`if (x)`): `undefined`, `null`,
`false`, `0` and the empty string are falsy; arrays and objects are truthy. -/
def Value.truthy : Value → Bool
  | .undef => false
  | .null => false
  | .bool b => b
  | .num n => !(n == 0)
  | .str s => !(s == "")
  | .arr _ => true
  | .obj _ => true

/-- Whether the value is `undefined` (used to model `x !== undefined`). -/
def Value.isUndef : Value → Bool
  | .undef => true
  | _ => false

/-- Whether `typeof v === 'object' && v !== null` holds (arrays included). -/
def Value.isObjectLike : Value → Bool
  | .arr _ => true
  | .obj _ => true
  | _ => false

/-- Whether the value is a plain record: `typeof v === 'object' && v !== null
&& !Array.isArray(v)` (the `isRecord` helper of `chat.ts`). -/
def Value.isRecord : Value → Bool
  | .obj _ => true
  | _ => false

/-- Property read `v[key]` on a record, `undefined` when the key is absent or
the value is not a plain object. -/
def Value.getProp : Value → String → Value
  | .obj fields, key =>
    match fields.find? (fun f => f.1 == key) with
    | some f => f.2
    | none => .undef
  | _, _ => (.undef)

/-- Property presence test `key in v` on a plain object. -/
def Value.hasProp : Value → String → Bool
  | .obj fields, key => fields.any (fun f => f.1 == key)
  | _, _ => false

/-- The set of characters stripped by JavaScript `String.prototype.trim`
(ASCII whitespace plus the common Unicode space characters). -/
def isJsWhitespace (c : Char) : Bool :=
  c == ' ' || c == '\t' || c == '\n' || c == '\r' ||
  c == '\x0b' || c == '\x0c' || c == ' ' || c == '﻿'

/-- Model of JavaScript `s.trim()`: strip leading and trailing whitespace. -/
def jsTrim (s : String) : String :=
  ⟨((s.data.dropWhile isJsWhitespace).reverse.dropWhile isJsWhitespace).reverse⟩

/-- Model of JavaScript `s.slice(0, e)` where `e` may be negative (counted
from the end of the string, clamped at zero). -/
def jsSliceTo (s : String) (e : Int) : String :=
  let len : Int := s.data.length
  let stop : Int := if e < 0 then (if len + e < 0 then 0 else len + e)
    else (if e > len then len else e)
  ⟨s.data.take stop.toNat⟩

mutual

/-- Model of the JavaScript `String()` coercion for the value classes that
reach it in `chat.ts` (`String(parsedInput)`, `String(item)`). -/
def jsString : Value → String
  | .undef => "undefined"
  | .null => "null"
  | .bool b => if b then "true" else "false"
  | .num n => n.repr
  | .str s => s
  | .arr elems => String.intercalate "," (jsStringElems elems)
  | .obj _ => "[object Object]"

/-- Array elements under `String()`: `null` and `undefined` render empty. -/
def jsStringElems : List Value → List String
  | [] => []
  | .undef :: rest => "" :: jsStringElems rest
  | .null :: rest => "" :: jsStringElems rest
  | v :: rest => jsString v :: jsStringElems rest

end

/-- JSON whitespace accepted between tokens by `JSON.parse`. -/
def isJsonWs (c : Char) : Bool :=
  c == ' ' || c == '\t' || c == '\n' || c == '\r'

/-- Decode one JSON string-literal escape tail after a backslash, returning
the decoded character and the unconsumed input. -/
def jsonEscape : List Char → Option (Char × List Char)
  | [] => none
  | c :: rest =>
    if c == '"' then some ('"', rest)
    else if c == '\\' then some ('\\', rest)
    else if c == '/' then some ('/', rest)
    else if c == 'b' then some ('\x08', rest)
    else if c == 'f' then some ('\x0c', rest)
    else if c == 'n' then some ('\n', rest)
    else if c == 'r' then some ('\r', rest)
    else if c == 't' then some ('\t', rest)
    else if c == 'u' then
      match rest with
      | h1 :: h2 :: h3 :: h4 :: rest2 =>
        if h1.isDigit || ('a' ≤ h1 && h1 ≤ 'f') || ('A' ≤ h1 && h1 ≤ 'F') then
          let hex := fun (h : Char) =>
            if h.isDigit then h.toNat - '0'.toNat
            else if 'a' ≤ h && h ≤ 'f' then h.toNat - 'a'.toNat + 10
            else h.toNat - 'A'.toNat + 10
          if (h2.isDigit || ('a' ≤ h2 && h2 ≤ 'f') || ('A' ≤ h2 && h2 ≤ 'F')) &&
             (h3.isDigit || ('a' ≤ h3 && h3 ≤ 'f') || ('A' ≤ h3 && h3 ≤ 'F')) &&
             (h4.isDigit || ('a' ≤ h4 && h4 ≤ 'f') || ('A' ≤ h4 && h4 ≤ 'F')) then
            some (Char.ofNat (((hex h1 * 16 + hex h2) * 16 + hex h3) * 16 + hex h4), rest2)
          else none
        else none
      | _ => none
    else none

/-- Parse the body of a JSON string literal (opening quote consumed). -/
def jsonParseStringBody (fuel : Nat) (cs : List Char) (acc : List Char) :
    Option (String × List Char) :=
  match fuel with
  | 0 => none
  | fuel + 1 =>
    match cs with
    | [] => none
    | c :: rest =>
      if c == '"' then some (⟨acc.reverse⟩, rest)
      else if c == '\\' then
        match jsonEscape rest with
        | some (d, rest2) => jsonParseStringBody fuel rest2 (d :: acc)
        | none => none
      else if c.toNat < 32 then none
      else jsonParseStringBody fuel rest (c :: acc)

/-- Parse a JSON integer numeral (optional minus sign, digit run). -/
def jsonParseNumber (cs : List Char) : Option (Int × List Char) :=
  let (neg, cs2) :=
    match cs with
    | '-' :: rest => (true, rest)
    | _ => (false, cs)
  let digits := cs2.takeWhile Char.isDigit
  let rest := cs2.dropWhile Char.isDigit
  if digits.isEmpty then none
  else
    match rest with
    | '.' :: _ => none
    | 'e' :: _ => none
    | 'E' :: _ => none
    | _ =>
      let n : Nat := digits.foldl (fun acc c => acc * 10 + (c.toNat - '0'.toNat)) 0
      some (if neg then -(n : Int) else (n : Int), rest)

mutual

/-- Recursive-descent JSON value parser (model of `JSON.parse`, integer
numerals only; the fuel dominates the input length). -/
def jsonParseValue (fuel : Nat) (cs : List Char) : Option (Value × List Char) :=
  match fuel with
  | 0 => none
  | fuel + 1 =>
    match cs.dropWhile isJsonWs with
    | [] => none
    | c :: rest =>
      if c == '"' then
        match jsonParseStringBody fuel rest [] with
        | some (s, rest2) => some (.str s, rest2)
        | none => none
      else if c == '[' then
        match (rest.dropWhile isJsonWs) with
        | ']' :: rest2 => some (.arr [], rest2)
        | _ => jsonParseElems fuel rest []
      else if c == '\x7b' then
        match (rest.dropWhile isJsonWs) with
        | '\x7d' :: rest2 => some (.obj [], rest2)
        | _ => jsonParseFields fuel rest []
      else if c == 't' then
        match rest with
        | 'r' :: 'u' :: 'e' :: rest2 => some (.bool true, rest2)
        | _ => none
      else if c == 'f' then
        match rest with
        | 'a' :: 'l' :: 's' :: 'e' :: rest2 => some (.bool false, rest2)
        | _ => none
      else if c == 'n' then
        match rest with
        | 'u' :: 'l' :: 'l' :: rest2 => some (.null, rest2)
        | _ => none
      else
        match jsonParseNumber (c :: rest) with
        | some (n, rest2) => some (.num n, rest2)
        | none => none

/-- Parse the elements of a JSON array after its opening bracket. -/
def jsonParseElems (fuel : Nat) (cs : List Char) (acc : List Value) :
    Option (Value × List Char) :=
  match fuel with
  | 0 => none
  | fuel + 1 =>
    match jsonParseValue fuel cs with
    | none => none
    | some (v, rest) =>
      match rest.dropWhile isJsonWs with
      | ',' :: rest2 => jsonParseElems fuel rest2 (v :: acc)
      | ']' :: rest2 => some (.arr (v :: acc).reverse, rest2)
      | _ => none

/-- Parse the members of a JSON object after its opening brace. -/
def jsonParseFields (fuel : Nat) (cs : List Char) (acc : List (String × Value)) :
    Option (Value × List Char) :=
  match fuel with
  | 0 => none
  | fuel + 1 =>
    match cs.dropWhile isJsonWs with
    | '"' :: rest =>
      match jsonParseStringBody fuel rest [] with
      | none => none
      | some (key, rest2) =>
        match rest2.dropWhile isJsonWs with
        | ':' :: rest3 =>
          match jsonParseValue fuel rest3 with
          | none => none
          | some (v, rest4) =>
            match rest4.dropWhile isJsonWs with
            | ',' :: rest5 => jsonParseFields fuel rest5 ((key, v) :: acc)
            | '\x7d' :: rest5 => some (.obj ((key, v) :: acc).reverse, rest5)
            | _ => none
        | _ => none
    | _ => none

end

/-- Model of `JSON.parse(s)`: `none` when the parse throws. -/
def jsonParse (s : String) : Option Value :=
  match jsonParseValue (s.length + 1) s.data with
  | some (v, rest) => if (rest.dropWhile isJsonWs).isEmpty then some v else none
  | none => none

/-- Escape a string for JSON output (model of the stringifier's quoting). -/
def jsonQuote (s : String) : String :=
  "\"" ++ String.join (s.data.map (fun c =>
    if c == '"' then "\\\""
    else if c == '\\' then "\\\\"
    else if c == '\n' then "\\n"
    else if c == '\r' then "\\r"
    else if c == '\t' then "\\t"
    else if c.toNat < 32 then
      "\\u00" ++ ⟨[Nat.digitChar (c.toNat / 16), Nat.digitChar (c.toNat % 16)]⟩
    else ⟨[c]⟩)) ++ "\""

mutual

/-- Model of compact `JSON.stringify(v)`: `none` models the JavaScript result
`undefined` (stringifying `undefined` itself); `undefined` array elements
render as `null` and `undefined`-valued object members are omitted. -/
def jsonStringify : Value → Option String
  | .undef => none
  | .null => some "null"
  | .bool b => some (if b then "true" else "false")
  | .num n => some n.repr
  | .str s => some (jsonQuote s)
  | .arr elems => some ("[" ++ String.intercalate "," (jsonStringifyElems elems) ++ "]")
  | .obj fields => some ("\x7b" ++ String.intercalate "," (jsonStringifyMembers fields) ++ "\x7d")

/-- Array elements under compact `JSON.stringify`. -/
def jsonStringifyElems : List Value → List String
  | [] => []
  | v :: rest =>
    (match jsonStringify v with
     | some out => out
     | none => "null") :: jsonStringifyElems rest

/-- Object members under compact `JSON.stringify`. -/
def jsonStringifyMembers : List (String × Value) → List String
  | [] => []
  | (k, v) :: rest =>
    match jsonStringify v with
    | some out => (jsonQuote k ++ ":" ++ out) :: jsonStringifyMembers rest
    | none => jsonStringifyMembers rest

end

mutual

/-- Model of pretty `JSON.stringify(v, null, 2)`; the exact layout of the
pretty printer is not relied upon by any claim, only its definedness and
determinism. -/
def jsonStringifyIndent (pad : String) : Value → Option String
  | .undef => none
  | .null => some "null"
  | .bool b => some (if b then "true" else "false")
  | .num n => some n.repr
  | .str s => some (jsonQuote s)
  | .arr elems =>
    if elems.isEmpty then some "[]"
    else some ("[\n" ++ String.intercalate ",\n" (jsonStringifyIndentElems pad elems)
      ++ "\n" ++ pad ++ "]")
  | .obj fields =>
    if fields.isEmpty then some "\x7b\x7d"
    else some ("\x7b\n" ++ String.intercalate ",\n" (jsonStringifyIndentMembers pad fields)
      ++ "\n" ++ pad ++ "\x7d")

/-- Array elements under pretty `JSON.stringify`. -/
def jsonStringifyIndentElems (pad : String) : List Value → List String
  | [] => []
  | v :: rest =>
    (pad ++ "  " ++ (match jsonStringifyIndent (pad ++ "  ") v with
     | some out => out
     | none => "null")) :: jsonStringifyIndentElems pad rest

/-- Object members under pretty `JSON.stringify`. -/
def jsonStringifyIndentMembers (pad : String) : List (String × Value) → List String
  | [] => []
  | (k, v) :: rest =>
    match jsonStringifyIndent (pad ++ "  ") v with
    | some out => (pad ++ "  " ++ jsonQuote k ++ ": " ++ out) :: jsonStringifyIndentMembers pad rest
    | none => jsonStringifyIndentMembers pad rest

end

/-- Model of `coerceJson` (`chat.ts` lines 24-36): `undefined`/`null` become
`undefined`; strings are JSON-parsed when possible; other values pass through. -/
def coerceJson (value : Value) : Value :=
  match value with
  | .undef => .undef
  | .null => .undef
  | .str s =>
    match jsonParse s with
    | some v => v
    | none => .str s
  | v => v

/-- Model of `extractQuery` (`chat.ts` lines 42-53): a plain-string input is
the query; otherwise a string-valued `query` field of an object input. -/
def extractQuery (input : Value) : Option String :=
  match input with
  | .str s => some s
  | _ =>
    if input.isObjectLike && input.hasProp "query" then
      match input.getProp "query" with
      | .str s => some s
      | _ => none
    else none

/-- Model of `shorten` (`chat.ts` lines 59-64); the TypeScript default for
`max` is 72, realised by `shortenDefault`. -/
def shorten (value : String) (max : Nat) : String :=
  if value.length ≤ max then value
  else jsSliceTo value ((max : Int) - 3) ++ "..."

/-- `shorten` applied with its TypeScript default maximum of 72. -/
def shortenDefault (value : String) : String :=
  shorten value 72

/-- One bulleted line of `normaliseDetail` for an array element. -/
def normaliseDetailItem (item : Value) : String :=
  match item with
  | .str s => "- " ++ s
  | .arr _ =>
    let title := match item.getProp "title" with | .str s => s | _ => ""
    let content := match item.getProp "content" with | .str s => s | _ => ""
    "- " ++ (if title ≠ "" then title else content)
  | .obj _ =>
    let title := match item.getProp "title" with | .str s => s | _ => ""
    let content := match item.getProp "content" with | .str s => s | _ => ""
    "- " ++ (if title ≠ "" then title else content)
  | v => "- " ++ jsString v

/-- Model of `normaliseDetail` (`chat.ts` lines 70-108): strings pass through,
numbers/booleans stringify, arrays render as bulleted lines, objects as
`key: value` lines (empty objects yield `undefined`). -/
def normaliseDetail (value : Value) : Option String :=
  match value with
  | .undef => none
  | .null => none
  | .str s => some s
  | .num n => some (jsString (.num n))
  | .bool b => some (jsString (.bool b))
  | .arr items => some (String.intercalate "\n" (items.map normaliseDetailItem))
  | .obj fields =>
    if fields.isEmpty then none
    else some (String.intercalate "\n" (fields.map (fun f =>
      f.1 ++ ": " ++ (match f.2 with
        | .str s => s
        | v =>
          match jsonStringify v with
          | some out => out
          | none => "undefined"))))

/-- Detail section of a tool event (`ToolEventDetailSection` of the client
types): optional title, bulleted lines, optional footnote. -/
structure ToolEventDetailSection where
  title : Option String
  lines : List String
  footnote : Option String
deriving DecidableEq

/-- A `{title, url}` link attached to a tool event. -/
structure ToolLink where
  title : String
  url : String
deriving DecidableEq

/-- Model of `sectionsToDetail` (`chat.ts` lines 460-470). -/
def sectionsToDetail (sections : List ToolEventDetailSection) : String :=
  String.intercalate "\n\n" ((sections.map (fun sec =>
    let title := match sec.title with
      | some t => if t ≠ "" then t ++ "\n" else ""
      | none => ""
    let body := String.intercalate "\n" (sec.lines.map (fun line => "- " ++ line))
    let footnote := match sec.footnote with
      | some f => if f ≠ "" then "\n" ++ f else ""
      | none => ""
    jsTrim (title ++ body ++ footnote))).filter (fun entry => entry.length > 0))

/-- The `ExcelTable` shape recovered by the tabular formatter: column names,
rows as records, optional summary and row count. -/
structure ExcelTable where
  columns : List String
  rows : List (List (String × Value))
  summary : Option String
  rowCount : Option Int

/-- Model of `normaliseMessageText` (`chat.ts` lines 481-529). -/
def normaliseMessageText (content : Value) : Option String :=
  match content with
  | .str s => if jsTrim s ≠ "" then some (jsTrim s) else none
  | .arr entries =>
    let collected := (entries.map (fun entry =>
      match entry with
      | .str s => some (jsTrim s)
      | .obj _ =>
        match entry.getProp "text" with
        | .str s => some (jsTrim s)
        | _ =>
          match entry.getProp "content" with
          | .str s => some (jsTrim s)
          | _ =>
            match entry.getProp "data" with
            | .str s => some (jsTrim s)
            | _ => none
      | _ => none)).filterMap (fun v =>
        match v with
        | some s => if s ≠ "" then some s else none
        | none => none)
    if collected.length > 0 then some (jsTrim (String.intercalate " " collected))
    else none
  | .obj _ =>
    match content.getProp "text" with
    | .str s =>
      if jsTrim s ≠ "" then some (jsTrim s) else noTextFallback content
    | _ => noTextFallback content
  | _ => none
where
  /-- Fallbacks of the record case: `content` then `message` fields. -/
  noTextFallback (content : Value) : Option String :=
    match content.getProp "content" with
    | .str s =>
      if jsTrim s ≠ "" then some (jsTrim s) else noMessageFallback content
    | _ => noMessageFallback content
  /-- Last fallback of the record case: the `message` field. -/
  noMessageFallback (content : Value) : Option String :=
    match content.getProp "message" with
    | .str s => if jsTrim s ≠ "" then some (jsTrim s) else none
    | _ => none

/-- Column assignment for a positional excel row (`normaliseExcelRow` array
case, `chat.ts` lines 536-543). -/
def excelRowFromCells (columns : List String) (cells : List Value) (index : Nat) :
    List (String × Value) :=
  match cells with
  | [] => []
  | v :: rest =>
    (match columns.get? index with
     | some key => key
     | none => "col_" ++ Nat.repr (index + 1), v) :: excelRowFromCells columns rest (index + 1)

/-- Model of `normaliseExcelRow` (`chat.ts` lines 532-545). -/
def normaliseExcelRow (row : Value) (columns : List String) : List (String × Value) :=
  match row with
  | .obj fields => fields
  | .arr cells => excelRowFromCells columns cells 0
  | v => [("value", v)]

/-- Extract a list of strings from a JSON array value, failing when any
element is not a string (`columnsCandidate.every(col => typeof col === 'string')`). -/
def valueStrings? (vs : List Value) : Option (List String) :=
  vs.mapM (fun v =>
    match v with
    | .str s => some s
    | _ => none)

/-- Model of `tryCreateExcelTableFromRecord` (`chat.ts` lines 548-609); the
fuel dominates the depth of the string-reparse recursion. -/
def tryCreateExcelTableFromRecord (fuel : Nat) (record : Value) : Option ExcelTable :=
  match fuel with
  | 0 => none
  | fuel + 1 =>
    let columnsCandidate := record.getProp "columns"
    let rowsCandidate := record.getProp "rows"
    let structured :=
      match columnsCandidate, rowsCandidate with
      | .arr cols, .arr rows =>
        match valueStrings? cols with
        | some columns =>
          some
            { columns := columns
              rows := rows.map (fun row => normaliseExcelRow row columns)
              summary :=
                match record.getProp "summary" with
                | .str s => if jsTrim s ≠ "" then some (jsTrim s) else none
                | _ => none
              rowCount :=
                match record.getProp "row_count" with
                | .num n => some n
                | _ =>
                  match record.getProp "rowCount" with
                  | .num n => some n
                  | _ => some (rows.length : Int) }
        | none => none
      | _, _ => none
    match structured with
    | some table => some table
    | none =>
      let fromData :=
        if (record.getProp "data").isRecord then
          tryCreateExcelTableFromRecord fuel (record.getProp "data")
        else none
      match fromData with
      | some table => some table
      | none =>
        match record.getProp "content" with
        | .arr entries =>
          entries.findSome? (fun entry =>
            let parsed := coerceJson entry
            if parsed.isRecord then tryCreateExcelTableFromRecord fuel parsed else none)
        | .str s =>
          let parsed := coerceJson (.str s)
          if parsed.isRecord then tryCreateExcelTableFromRecord fuel parsed else none
        | _ => none

mutual

/-- Size measure used to provision fuel for the excel output walkers: every
breadth-first iteration strictly decreases the total weight of its queue. -/
def valueWeight : Value → Nat
  | .undef => 1
  | .null => 1
  | .bool _ => 1
  | .num _ => 1
  | .str s => s.length + 2
  | .arr elems => 2 + valueWeightList elems
  | .obj fields => 2 + valueWeightFields fields

/-- Total weight of a list of values. -/
def valueWeightList : List Value → Nat
  | [] => 0
  | v :: rest => valueWeight v + valueWeightList rest

/-- Total weight of the fields of an object. -/
def valueWeightFields : List (String × Value) → Nat
  | [] => 0
  | (k, v) :: rest => k.length + 2 + valueWeight v + valueWeightFields rest

end

/-- The dedup digest of `collectExcelTables.registerTable`:
`JSON.stringify({columns: table.columns, rows: table.rows.slice(0, 3)})`. -/
def excelTableDigest (table : ExcelTable) : String :=
  match jsonStringify (.obj
    [("columns", .arr (table.columns.map Value.str)),
     ("rows", .arr ((table.rows.take 3).map Value.obj))]) with
  | some out => out
  | none => ""

/-- The nested-candidate fields scanned by `collectExcelTables`. -/
def excelNestedCandidateKeys : List String :=
  ["content", "output", "outputs", "result", "results", "data", "value",
   "response", "payload", "tool_output", "table", "table_data"]

/-- Breadth-first worker of `collectExcelTables` (`chat.ts` lines 612-710).
The JavaScript `WeakSet` guarding against revisiting shared references is
vacuous on tree-shaped JSON values and is therefore not modelled; the fuel
dominates the iteration count. -/
def collectTablesGo (fuel : Nat) (queue : List Value) (seen : List String)
    (acc : List ExcelTable) : List ExcelTable :=
  match fuel with
  | 0 => acc
  | fuel + 1 =>
    match queue with
    | [] => acc
    | current :: rest =>
      match current with
      | .undef => collectTablesGo fuel rest seen acc
      | .null => collectTablesGo fuel rest seen acc
      | .str s =>
        let parsed := coerceJson (.str s)
        let next :=
          match parsed with
          | .str t => if t == s then rest else rest ++ [parsed]
          | _ => rest ++ [parsed]
        collectTablesGo fuel next seen acc
      | .bool _ => collectTablesGo fuel rest seen acc
      | .num _ => collectTablesGo fuel rest seen acc
      | .arr elems => collectTablesGo fuel (rest ++ elems) seen acc
      | .obj _ =>
        let record := current
        let (seen2, acc2) :=
          match tryCreateExcelTableFromRecord (fuel + 1) record with
          | some table =>
            let digest := excelTableDigest table
            if seen.contains digest then (seen, acc)
            else (digest :: seen, acc ++ [table])
          | none => (seen, acc)
        let nested := (excelNestedCandidateKeys.map record.getProp).filter
          (fun v => !v.isUndef)
        let extra := (["messages", "tool_calls", "arguments"].map record.getProp).filter
          (fun v =>
            match v with
            | .arr _ => true
            | _ => false)
        collectTablesGo fuel (rest ++ nested ++ extra) seen2 acc2

/-- Model of `collectExcelTables` (`chat.ts` lines 612-710). -/
def collectExcelTables (root : Value) : List ExcelTable :=
  collectTablesGo (valueWeight root + 1) [root] [] []

/-- Recursive worker of `collectExcelAnalyses` (`chat.ts` lines 713-777); the
fuel dominates the recursion depth. -/
def collectAnalysesGo (fuel : Nat) (value : Value) : List String :=
  match fuel with
  | 0 => []
  | fuel + 1 =>
    match value with
    | .undef => []
    | .null => []
    | .str s =>
      let parsed := coerceJson (.str s)
      match parsed with
      | .str t => if t == s then [] else collectAnalysesGo fuel parsed
      | _ => collectAnalysesGo fuel parsed
    | .bool _ => []
    | .num _ => []
    | .arr elems => elems.flatMap (collectAnalysesGo fuel)
    | .obj _ =>
      let record := value
      let role :=
        match record.getProp "type" with
        | .str s => some s
        | _ =>
          match record.getProp "role" with
          | .str s => some s
          | _ => none
      let own :=
        match role with
        | some r =>
          if r.toLower == "ai" || r.toLower == "assistant" then
            match normaliseMessageText (record.getProp "content") with
            | some text => [text]
            | none => []
          else []
        | none => []
      let fromMessages :=
        match record.getProp "messages" with
        | .arr ms => ms.flatMap (collectAnalysesGo fuel)
        | _ => []
      let fromToolCalls :=
        match record.getProp "tool_calls" with
        | .arr ts => ts.flatMap (collectAnalysesGo fuel)
        | _ => []
      let fromContent :=
        if (record.getProp "content").isUndef then []
        else collectAnalysesGo fuel (record.getProp "content")
      let fromOutput :=
        if (record.getProp "output").isUndef then []
        else collectAnalysesGo fuel (record.getProp "output")
      let fromResult :=
        if (record.getProp "result").isUndef then []
        else collectAnalysesGo fuel (record.getProp "result")
      own ++ fromMessages ++ fromToolCalls ++ fromContent ++ fromOutput ++ fromResult

/-- Model of `collectExcelAnalyses` (`chat.ts` lines 713-777). -/
def collectExcelAnalyses (root : Value) : List String :=
  collectAnalysesGo (valueWeight root + 1) root

/-- Loop body of `parseQuotedString` (`chat.ts` lines 780-813): scan a quoted
literal decoding `\n`, `\t`, `\r` and passing other escaped characters
through; a dangling backslash or a missing closing quote yields `null`. -/
def parseQuotedBody (quote : Char) (cs : List Char) (i : Nat) (acc : List Char) :
    Option (String × Nat) :=
  match cs with
  | [] => none
  | c :: rest =>
    if c == '\\' then
      match rest with
      | [] => none
      | next :: rest2 =>
        let d :=
          if next == 'n' then '\n'
          else if next == 't' then '\t'
          else if next == 'r' then '\r'
          else next
        parseQuotedBody quote rest2 (i + 2) (d :: acc)
    else if c == quote then some (⟨acc.reverse⟩, i + 1)
    else parseQuotedBody quote rest (i + 1) (c :: acc)

/-- Model of `parseQuotedString` (`chat.ts` lines 780-813): the scanned value
together with the index one past the closing quote. -/
def parseQuotedString (text : String) (startIndex : Nat) : Option (String × Nat) :=
  match text.data.drop startIndex with
  | [] => none
  | q :: rest =>
    if q == '\'' || q == '"' then parseQuotedBody q rest (startIndex + 1) []
    else none

/-- First index at or after `pos` where `needle` occurs in `cs` (model of
`String.prototype.indexOf`). -/
def listIndexOfFrom (needle : List Char) : List Char → Nat → Option Nat
  | [], pos => if needle.isEmpty then some pos else none
  | c :: rest, pos =>
    if needle.isPrefixOf (c :: rest) then some pos
    else listIndexOfFrom needle rest (pos + 1)

/-- Model of `value.indexOf(needle, index)` over the character list of the
whole string. -/
def strIndexOfFrom (cs : List Char) (needle : String) (index : Nat) : Option Nat :=
  match listIndexOfFrom needle.data (cs.drop index) 0 with
  | some off => some (index + off)
  | none => none

/-- Attempt to match the regular expression `'query':\s*'([^']+)'` at the
head of the character list, returning the capture. -/
def matchQueryAt (cs : List Char) : Option String :=
  if ("'query':".data).isPrefixOf cs then
    let afterMarker := cs.drop 8
    let afterWs := afterMarker.dropWhile isJsWhitespace
    match afterWs with
    | '\'' :: rest =>
      let capture := rest.takeWhile (fun c => !(c == '\''))
      let remainder := rest.dropWhile (fun c => !(c == '\''))
      if capture.isEmpty then none
      else
        match remainder with
        | '\'' :: _ => some ⟨capture⟩
        | _ => none
    | _ => none
  else none

/-- First match of the query regular expression anywhere in the string
(model of `value.match(/'query':\s*'([^']+)'/)`). -/
def findQueryMatch : List Char → Option String
  | [] => none
  | c :: rest =>
    match matchQueryAt (c :: rest) with
    | some q => some q
    | none => findQueryMatch rest

/-- Model of `.replace(/\\n/g, '\n')`: decode literal backslash-n pairs. -/
def replaceEscapedNewlines : List Char → List Char
  | '\\' :: 'n' :: rest => '\n' :: replaceEscapedNewlines rest
  | c :: rest => c :: replaceEscapedNewlines rest
  | [] => []

/-- Result shape of `parseExcelSearchOutputString`. -/
structure ExcelScanResult where
  tables : List ExcelTable
  analyses : List String
  query : Option String

/-- The `ToolMessage(content=` scan loop of `parseExcelSearchOutputString`
(`chat.ts` lines 828-852); the scan index strictly increases, so the fuel
(the input length plus one) dominates the iteration count. -/
def scanToolMessages (text : String) (fuel : Nat) (index : Nat)
    (acc : List ExcelTable) : List ExcelTable :=
  match fuel with
  | 0 => acc
  | fuel + 1 =>
    if index < text.data.length then
      match strIndexOfFrom text.data "ToolMessage(content=" index with
      | none => acc
      | some toolIdx =>
        let cursor0 := toolIdx + "ToolMessage(content=".length
        let cursor := cursor0 + ((text.data.drop cursor0).takeWhile (fun c => c == ' ')).length
        match parseQuotedString text cursor with
        | none => scanToolMessages text fuel (cursor + 1) acc
        | some (decoded, endIndex) =>
          let parsedPayload := coerceJson (.str decoded)
          let acc2 :=
            if parsedPayload.isRecord then
              match tryCreateExcelTableFromRecord (valueWeight parsedPayload + 1) parsedPayload with
              | some table => acc ++ [table]
              | none => acc
            else acc
          scanToolMessages text fuel endIndex acc2
    else acc

/-- The `AIMessage(content=` scan loop of `parseExcelSearchOutputString`
(`chat.ts` lines 855-875). -/
def scanAiMessages (text : String) (fuel : Nat) (index : Nat)
    (acc : List String) : List String :=
  match fuel with
  | 0 => acc
  | fuel + 1 =>
    if index < text.data.length then
      match strIndexOfFrom text.data "AIMessage(content=" index with
      | none => acc
      | some aiIdx =>
        let cursor0 := aiIdx + "AIMessage(content=".length
        let cursor := cursor0 + ((text.data.drop cursor0).takeWhile (fun c => c == ' ')).length
        match parseQuotedString text cursor with
        | none => scanAiMessages text fuel (cursor + 1) acc
        | some (quoted, endIndex) =>
          let content := jsTrim quoted
          let acc2 := if content.length > 0 then acc ++ [content] else acc
          scanAiMessages text fuel endIndex acc2
    else acc

/-- Model of `parseExcelSearchOutputString` (`chat.ts` lines 816-879): the
quote-aware scanner over legacy pseudo-repr output blobs. -/
def parseExcelSearchOutputString (value : String) : ExcelScanResult :=
  let query :=
    match findQueryMatch value.data with
    | some q => some (jsTrim ⟨replaceEscapedNewlines q.data⟩)
    | none => none
  let tables := scanToolMessages value (value.data.length + 1) 0 []
  let analyses := scanAiMessages value (value.data.length + 1) 0 []
  { tables := tables, analyses := analyses, query := query }

/-- Model of `formatScore` (`chat.ts` lines 882-888) over integer scores. -/
def formatScore (score : Value) : Option String :=
  match score with
  | .num n =>
    let clamped : Int := if n < 0 then 0 else if n > 1 then 1 else n
    some ("Relevance: " ++ (clamped * 100).repr ++ "%")
  | _ => none

/-- Model of the JavaScript `Number(String)` coercion restricted to integer
numerals: surrounding whitespace is ignored, the empty string is zero, and
anything non-numeric is `NaN` (`none`). -/
def jsNumberOfString (s : String) : Option Int :=
  let t := jsTrim s
  if t == "" then some 0
  else
    let (neg, digits) :=
      match t.data with
      | '-' :: rest => (true, rest)
      | '+' :: rest => (false, rest)
      | cs => (false, cs)
    if digits.isEmpty || !digits.all Char.isDigit then none
    else
      let n : Nat := digits.foldl (fun acc c => acc * 10 + (c.toNat - '0'.toNat)) 0
      some (if neg then -(n : Int) else (n : Int))

/-- Gregorian calendar date of a day count since 1970-01-01 (the standard
civil-from-days computation), as `(year, month, day)`. -/
def civilFromDays (days : Int) : Int × Int × Int :=
  let z := days + 719468
  let era := z.fdiv 146097
  let doe := z - era * 146097
  let yoe := (doe - doe.fdiv 1460 + doe.fdiv 36524 - doe.fdiv 146096).fdiv 365
  let y := yoe + era * 400
  let doy := doe - (365 * yoe + yoe.fdiv 4 - yoe.fdiv 100)
  let mp := (5 * doy + 2).fdiv 153
  let d := doy - (153 * mp + 2).fdiv 5 + 1
  let m := if mp < 10 then mp + 3 else mp - 9
  (if m ≤ 2 then y + 1 else y, m, d)

/-- Day count since 1970-01-01 of a Gregorian calendar date (the standard
days-from-civil computation). -/
def daysFromCivil (y m d : Int) : Int :=
  let y2 := if m ≤ 2 then y - 1 else y
  let era := y2.fdiv 400
  let yoe := y2 - era * 400
  let doy := (153 * (if m > 2 then m - 3 else m + 9) + 2).fdiv 5 + d - 1
  let doe := yoe * 365 + yoe.fdiv 4 - yoe.fdiv 100 + doy
  era * 146097 + doe - 719468

/-- Short month names indexed one-based. -/
def monthShortName (m : Int) : String :=
  match m with
  | 1 => "Jan" | 2 => "Feb" | 3 => "Mar" | 4 => "Apr" | 5 => "May" | 6 => "Jun"
  | 7 => "Jul" | 8 => "Aug" | 9 => "Sep" | 10 => "Oct" | 11 => "Nov" | 12 => "Dec"
  | _ => ""

/-- Short weekday names indexed from Sunday. -/
def weekdayShortName (w : Int) : String :=
  match w with
  | 0 => "Sun" | 1 => "Mon" | 2 => "Tue" | 3 => "Wed" | 4 => "Thu" | 5 => "Fri" | 6 => "Sat"
  | _ => ""

/-- Render an integer zero-padded to two digits. -/
def twoDigits (n : Int) : String :=
  if 0 ≤ n && n < 10 then "0" ++ n.repr else n.repr

/-- Deterministic model of `Date.prototype.toLocaleString` with options
`{month:'short', day:'numeric', hour:'2-digit', minute:'2-digit'}`: the
locale- and zone-dependent rendering is fixed to UTC 24-hour en-style text;
no claim depends on the exact shape of this string. -/
def formatMonthDayHM (millis : Int) : String :=
  let days := millis.fdiv 86400000
  let ms := millis - days * 86400000
  let hour := ms.fdiv 3600000
  let minute := (ms.fdiv 60000).fmod 60
  let ymd := civilFromDays days
  monthShortName ymd.2.1 ++ " " ++ ymd.2.2.repr ++ ", " ++ twoDigits hour ++ ":" ++ twoDigits minute

/-- Model of `formatTimestampDetail` (`chat.ts` lines 891-910): numeric or
numeric-string timestamps become a rendered date, with seconds-versus-millis
disambiguation; out-of-range epochs (an invalid `Date`) yield `undefined`. -/
def formatTimestampDetail (value : Value) : Option String :=
  let numeric :=
    match value with
    | .num n => some n
    | .str s => jsNumberOfString s
    | _ => none
  match numeric with
  | none => none
  | some n =>
    let millis := if n > 100000000000 then n else n * 1000
    if millis < -8640000000000000 || millis > 8640000000000000 then none
    else some (formatMonthDayHM millis)

/-- Minimal model of `new Date(isoString)` for `YYYY-MM-DD` or
`YYYY-MM-DDTHH:MM` prefixes (trailing seconds and zone designators are
ignored); other shapes are an invalid date (`none`). -/
def parseIsoMillis (s : String) : Option Int :=
  match s.data with
  | y1 :: y2 :: y3 :: y4 :: '-' :: m1 :: m2 :: '-' :: d1 :: d2 :: rest =>
    if [y1, y2, y3, y4, m1, m2, d1, d2].all Char.isDigit then
      let digit := fun (c : Char) => (c.toNat - '0'.toNat : Int)
      let y := ((digit y1 * 10 + digit y2) * 10 + digit y3) * 10 + digit y4
      let mo := digit m1 * 10 + digit m2
      let d := digit d1 * 10 + digit d2
      let hm :=
        match rest with
        | 'T' :: h1 :: h2 :: ':' :: n1 :: n2 :: _ =>
          if [h1, h2, n1, n2].all Char.isDigit then
            some (digit h1 * 10 + digit h2, digit n1 * 10 + digit n2)
          else none
        | [] => some (0, 0)
        | _ => none
      match hm with
      | some (h, mi) =>
        if 1 ≤ mo && mo ≤ 12 && 1 ≤ d && d ≤ 31 && h ≤ 23 && mi ≤ 59 then
          some (daysFromCivil y mo d * 86400000 + h * 3600000 + mi * 60000)
        else none
      | none => none
    else none
  | _ => none

/-- Model of `formatLocalDateTime` (`chat.ts` lines 1088-1105): render the
parsed instant with short weekday/month (fixed UTC 24-hour rendering), fall
back to the raw string for unparseable input, and append the timezone. -/
def formatLocalDateTime (isoString : String) (timezone : Option String) : String :=
  let formatted :=
    match parseIsoMillis isoString with
    | none => isoString
    | some millis =>
      let days := millis.fdiv 86400000
      let ms := millis - days * 86400000
      let hour := ms.fdiv 3600000
      let minute := (ms.fdiv 60000).fmod 60
      let ymd := civilFromDays days
      let weekday := (days.fmod 7 + 4).fmod 7
      weekdayShortName weekday ++ ", " ++ monthShortName ymd.2.1 ++ " " ++
        twoDigits ymd.2.2 ++ ", " ++ twoDigits hour ++ ":" ++ twoDigits minute
  match timezone with
  | some tz => if tz ≠ "" then formatted ++ " (" ++ tz ++ ")" else formatted
  | none => formatted

/-- Model of `toTitleCase` (`chat.ts` lines 1108-1112). -/
def toTitleCase (value : String) : String :=
  String.intercalate " " ((value.splitOn " ").map (fun part =>
    match part.data with
    | [] => ""
    | c :: rest => ⟨c.toUpper :: rest⟩))

/-- Lifecycle state of a tool event. -/
inductive ToolStatus where
  | running : ToolStatus
  | completed : ToolStatus
  | error : ToolStatus
deriving DecidableEq

/-- The `ToolEvent` record of the client types (`types/tool.ts`): one tool
invocation lifecycle. `Value.undef` models an absent `rawInput`/`rawOutput`;
`none` models absent optional fields. -/
structure ToolEvent where
  id : String
  toolName : String
  status : ToolStatus
  rawInput : Value
  rawOutput : Value
  headline : Option String
  detail : Option String
  links : Option (List ToolLink)
  detailSections : Option (List ToolEventDetailSection)

/-- JavaScript truthiness of an optional string (`undefined` and the empty
string are falsy). -/
def optStrTruthy (o : Option String) : Bool :=
  match o with
  | some s => !(s == "")
  | none => false

/-- String-valued field read with trim and non-emptiness guard, the
`typeof x === 'string' && x.trim().length > 0 ? x.trim() : undefined`
pattern of the formatters. -/
def trimmedStrProp (v : Value) (key : String) : Option String :=
  match v.getProp key with
  | .str s => if (jsTrim s).length > 0 then some (jsTrim s) else none
  | _ => none

/-- Model of `createToolEvent` (`chat.ts` lines 277-363) without its id: the
id assignment `seedId ?? generateId()` is applied by `createToolEvent`,
which see; every other field depends only on the tool name and input. -/
def createToolEventCore (toolName : String) (rawInput : Value) : ToolEvent :=
  let parsedInput := coerceJson rawInput
  let branch : Option String × Option String :=
    if toolName == "tavily_search" then
      let query := if parsedInput.truthy then extractQuery parsedInput else none
      (some "Preparing Tavily search...",
        match query with
        | some q => if q ≠ "" then some ("Searching for " ++ q) else none
        | none => none)
    else if toolName == "document_retriever" then
      let query := if parsedInput.truthy then extractQuery parsedInput else none
      (some "Searching internal documents...",
        match query with
        | some q =>
          if q ≠ "" then some ("Looking for \"" ++ q ++ "\" in the knowledge base")
          else some "Reviewing internal docs for relevant excerpts."
        | none => some "Reviewing internal docs for relevant excerpts.")
    else if toolName == "memory_retriever" then
      let query := if parsedInput.truthy then extractQuery parsedInput else none
      (some "Consulting conversation memory...",
        match query with
        | some q =>
          if q ≠ "" then some ("Retrieving memories related to \"" ++ q ++ "\".")
          else some "Searching stored conversations for useful context."
        | none => some "Searching stored conversations for useful context.")
    else if toolName == "excel_search_tool" then
      (some "Analyzing workforce dataset...",
        if parsedInput.truthy && parsedInput.isObjectLike && parsedInput.hasProp "query" then
          match parsedInput.getProp "query" with
          | .str q => if (jsTrim q).length > 0 then some (shorten (jsTrim q) 120) else none
          | _ => none
        else none)
    else if toolName == "location_weather_tool" then
      let fromIp :=
        if parsedInput.truthy && parsedInput.isObjectLike then
          match parsedInput.getProp "ip" with
          | .str ip =>
            if (jsTrim ip).length > 0 then
              some ("Looking up weather details for IP " ++ jsTrim ip ++ ".")
            else none
          | _ => none
        else none
      (some "Checking local conditions...",
        match fromIp with
        | some d => some d
        | none => some "Determining your current location and weather forecast.")
    else (none, none)
  let headline0 := branch.1
  let detail0 := branch.2
  let stage :=
    if optStrTruthy detail0 then (headline0, detail0)
    else if parsedInput.truthy && parsedInput.isObjectLike then
      match normaliseDetail parsedInput with
      | some fd => if fd ≠ "" then (headline0, some fd) else (headline0, detail0)
      | none => (headline0, detail0)
    else if parsedInput.truthy then (headline0, some (jsString parsedInput))
    else if rawInput.truthy then
      (headline0, some (match jsonStringifyIndent "" rawInput with
        | some out => out
        | none => jsString rawInput))
    else
      ((match headline0 with
        | some h => some h
        | none => some "Assistant tool engaged"), detail0)
  let headline1 := stage.1
  let detail1 := stage.2
  { id := ""
    toolName := toolName
    status := .running
    rawInput := parsedInput
    rawOutput := .undef
    headline := if optStrTruthy headline1 then headline1 else some "Assistant tool engaged"
    detail := if optStrTruthy detail1 then detail1 else none
    links := none
    detailSections := none }

/-- Model of `createToolEvent` (`chat.ts` lines 277-363): the core fields
plus the id `seedId ?? fresh`, where `fresh` stands for the `generateId()`
call of the source (id generation being the only impure part). -/
def createToolEvent (toolName : String) (rawInput : Value) (seedId : Option String)
    (fresh : String) : ToolEvent :=
  { createToolEventCore toolName rawInput with
    id :=
      match seedId with
      | some s => s
      | none => fresh }

/-- Model of `formatTavilyEvent` (`chat.ts` lines 407-453). -/
def formatTavilyEvent (event : ToolEvent) (parsed : Value) : ToolEvent :=
  let outputObject := if parsed.isRecord then parsed else Value.obj []
  let resultsArray : List Value :=
    match parsed with
    | .arr elems => elems
    | _ =>
      match outputObject.getProp "results" with
      | .arr elems => elems
      | _ => []
  let queryFromInput := if event.rawInput.truthy then extractQuery event.rawInput else none
  let headline :=
    match queryFromInput with
    | some q =>
      if q ≠ "" then some ("Web search - \"" ++ q ++ "\"")
      else if optStrTruthy event.headline then event.headline else some "Web search"
    | none =>
      if optStrTruthy event.headline then event.headline else some "Web search"
  let next := { event with headline := headline }
  let responseIsText :=
    match outputObject.getProp "response" with
    | .str s => decide ((jsTrim s).length > 0)
    | _ => false
  if responseIsText then
    match outputObject.getProp "response" with
    | .str s => { next with detail := some s }
    | _ => next
  else if resultsArray.length > 0 then
    let links := resultsArray.filterMap (fun item =>
      match item.getProp "title", item.getProp "url" with
      | .str t, .str u => some ({ title := t, url := u } : ToolLink)
      | _, _ => none)
    let next := { next with detail := none, links := some links }
    if links.length > 0 then
      { next with detail := some "Key sources surfaced from Tavily web search." }
    else next
  else next

/-- The per-result titled sections built by `formatDocumentEvent` over the
first three results (`chat.ts` lines 933-969); the `forEach` index counts
positions in the slice, skipped non-record items included. -/
def documentResultSections (resultsArray : List Value) : List ToolEventDetailSection :=
  ((resultsArray.take 3).enum).filterMap (fun p =>
    let index := p.1
    let item := p.2
    if item.isRecord then
      let source :=
        match item.getProp "source" with
        | .str s => if (jsTrim s).length > 0 then jsTrim s else "Document " ++ Nat.repr (index + 1)
        | _ => "Document " ++ Nat.repr (index + 1)
      let title :=
        match item.getProp "chunk_index" with
        | .num ci => Nat.repr (index + 1) ++ ". " ++ source ++ " (chunk " ++ ci.repr ++ ")"
        | _ => Nat.repr (index + 1) ++ ". " ++ source
      let snippet :=
        match item.getProp "snippet" with
        | .str s =>
          if (jsTrim s).length > 0 then some (jsTrim s)
          else
            match item.getProp "full_text" with
            | .str ft => if (jsTrim ft).length > 0 then some (shorten (jsTrim ft) 320) else none
            | _ => none
        | _ =>
          match item.getProp "full_text" with
          | .str ft => if (jsTrim ft).length > 0 then some (shorten (jsTrim ft) 320) else none
          | _ => none
      let lines0 :=
        [match snippet with
         | some s => if s.length > 0 then s else "No preview text available."
         | none => "No preview text available."]
      let lines :=
        match formatScore (item.getProp "score") with
        | some sc => if sc ≠ "" then lines0 ++ [sc] else lines0
        | none => lines0
      some ({ title := some title, lines := lines, footnote := none } : ToolEventDetailSection)
    else none)

/-- Model of `formatDocumentEvent` (`chat.ts` lines 913-996). -/
def formatDocumentEvent (event : ToolEvent) (parsed : Value) : ToolEvent :=
  let outputObject := if parsed.isRecord then parsed else Value.obj []
  let resultsArray : List Value :=
    match outputObject.getProp "results" with
    | .arr elems => elems
    | _ =>
      match parsed with
      | .arr elems => elems
      | _ => []
  let message :=
    match outputObject.getProp "message" with
    | .str s => some s
    | _ => none
  let next := { event with
    headline :=
      match event.headline with
      | some h => some h
      | none => some "Document retrieval complete" }
  let sections0 := documentResultSections resultsArray
  let processed := sections0.length
  if sections0.length = 0 then
    let fallback :=
      match message with
      | some m => m
      | none => "No relevant documents were found."
    { next with
      detail := some fallback
      detailSections :=
        match message with
        | some m =>
          if m ≠ "" then some [{ title := none, lines := [m], footnote := none }] else none
        | none => none }
  else
    let remaining := resultsArray.length - processed
    let sections1 :=
      if remaining > 0 then
        sections0 ++ [{ title := none
                        lines := ["... " ++ Nat.repr remaining ++ " additional result" ++
                          (if remaining = 1 then "" else "s") ++ " not shown."]
                        footnote := none }]
      else sections0
    let sections2 :=
      match message with
      | some m =>
        if m ≠ "" then sections1 ++ [{ title := none, lines := [m], footnote := none }]
        else sections1
      | none => sections1
    { next with detailSections := some sections2, detail := some (sectionsToDetail sections2) }

/-- The per-match titled sections built by `formatMemoryEvent` over the first
three results (`chat.ts` lines 1027-1066). -/
def memoryResultSections (resultsArray : List Value) : List ToolEventDetailSection :=
  ((resultsArray.take 3).enum).filterMap (fun p =>
    let index := p.1
    let item := p.2
    if item.isRecord then
      let userText := trimmedStrProp item "user"
      let assistantText := trimmedStrProp item "assistant"
      let summary := trimmedStrProp item "summary"
      let lines0 :=
        (match userText with
         | some u => ["You: " ++ shorten u 200]
         | none => []) ++
        (match assistantText with
         | some a => ["Atlas: " ++ shorten a 200]
         | none => [])
      let lines1 :=
        if lines0.length = 0 then
          match summary with
          | some s => [shorten s 220]
          | none => []
        else lines0
      let lines := if lines1.length = 0 then ["No transcript available."] else lines1
      let timestamp := formatTimestampDetail (item.getProp "timestamp")
      let score := formatScore (item.getProp "score")
      let metadataParts := ([timestamp, score].filterMap id).filter (fun part => part.length > 0)
      let title :=
        if metadataParts.length > 0 then
          "Match " ++ Nat.repr (index + 1) ++ " | " ++ String.intercalate " | " metadataParts
        else "Match " ++ Nat.repr (index + 1)
      some ({ title := some title, lines := lines, footnote := none } : ToolEventDetailSection)
    else none)

/-- Model of `formatMemoryEvent` (`chat.ts` lines 999-1085). -/
def formatMemoryEvent (event : ToolEvent) (parsed : Value) : ToolEvent :=
  let outputObject := if parsed.isRecord then parsed else Value.obj []
  let resultsArray : List Value :=
    match outputObject.getProp "results" with
    | .arr elems => elems
    | _ =>
      match parsed with
      | .arr elems => elems
      | _ => []
  let message :=
    match outputObject.getProp "message" with
    | .str s => some s
    | _ => none
  let next := { event with
    headline :=
      match event.headline with
      | some h => some h
      | none => some "Memory recall complete" }
  if resultsArray.length = 0 then
    let fallback :=
      match message with
      | some m => m
      | none => "No prior memories matched this query."
    { next with
      detail := some fallback
      detailSections :=
        match message with
        | some m =>
          if m ≠ "" then some [{ title := none, lines := [m], footnote := none }] else none
        | none => none }
  else
    let sections0 := memoryResultSections resultsArray
    let processed := sections0.length
    let remaining := resultsArray.length - processed
    let sections1 :=
      if remaining > 0 then
        sections0 ++ [{ title := none
                        lines := ["... " ++ Nat.repr remaining ++ " additional memory match" ++
                          (if remaining = 1 then "" else "es") ++ " not shown."]
                        footnote := none }]
      else sections0
    let sections2 :=
      match message with
      | some m =>
        if m ≠ "" then sections1 ++ [{ title := none, lines := [m], footnote := none }]
        else sections1
      | none => sections1
    { next with detailSections := some sections2, detail := some (sectionsToDetail sections2) }

/-- Model of `formatLocationWeatherEvent` (`chat.ts` lines 1115-1226). The
mojibake degree sign of the source (`Â°C`) is reproduced verbatim. -/
def formatLocationWeatherEvent (event : ToolEvent) (parsed : Value) : ToolEvent :=
  let next := { event with
    headline :=
      match event.headline with
      | some h => some h
      | none => some "Local conditions retrieved" }
  if !parsed.isRecord then
    match normaliseDetail parsed with
    | some fb => if fb ≠ "" then { next with detail := some fb } else next
    | none => next
  else
    let city := trimmedStrProp parsed "city"
    let region := trimmedStrProp parsed "region"
    let country := trimmedStrProp parsed "country"
    let timezone := trimmedStrProp parsed "timezone"
    let localTime := trimmedStrProp parsed "local_time"
    let ip := trimmedStrProp parsed "ip"
    let weather :=
      if (parsed.getProp "weather").isRecord then some (parsed.getProp "weather") else none
    let temp :=
      match weather with
      | some w =>
        match w.getProp "temp" with
        | .num n => some n
        | _ => none
      | none => none
    let humidity :=
      match weather with
      | some w =>
        match w.getProp "humidity" with
        | .num n => some n
        | _ => none
      | none => none
    let description :=
      match weather with
      | some w =>
        match trimmedStrProp w "description" with
        | some d => some (toTitleCase d)
        | none => none
      | none => none
    let locationParts :=
      String.intercalate ", " ([city, region, country].filterMap id)
    let locationLines :=
      (if locationParts ≠ "" then [locationParts] else []) ++
      (match timezone with
       | some tz => ["Timezone: " ++ tz]
       | none => []) ++
      (match localTime with
       | some lt => ["Local time: " ++ formatLocalDateTime lt timezone]
       | none => []) ++
      (match ip with
       | some i => ["IP: " ++ i]
       | none => [])
    let weatherLines :=
      (match temp with
       | some t => ["Temperature: " ++ t.repr ++ ".0Â°C"]
       | none => []) ++
      (match description with
       | some d => ["Conditions: " ++ d]
       | none => []) ++
      (match humidity with
       | some h => ["Humidity: " ++ h.repr ++ "%"]
       | none => [])
    let sections :=
      (if locationLines.length > 0 then
        [({ title := some "Location", lines := locationLines, footnote := none } :
          ToolEventDetailSection)]
      else []) ++
      (if weatherLines.length > 0 then
        [({ title := some "Weather", lines := weatherLines, footnote := none } :
          ToolEventDetailSection)]
      else [])
    if sections.length = 0 then
      match normaliseDetail parsed with
      | some fb => if fb ≠ "" then { next with detail := some fb } else next
      | none => next
    else
      let headlineParts : List String :=
        match city with
        | some c =>
          [c] ++ (match country with
                  | some x => [x]
                  | none =>
                    match region with
                    | some x => [x]
                    | none => [])
        | none =>
          match region with
          | some r =>
            [r] ++ (match country with
                    | some x => [x]
                    | none => [])
          | none =>
            match country with
            | some c => [c]
            | none => []
      let next :=
        if city.isSome || region.isSome || country.isSome then
          if headlineParts.length > 0 then
            { next with
              headline := some ("Local conditions for " ++
                String.intercalate ", " headlineParts) }
          else next
        else next
      { next with detailSections := some sections, detail := some (sectionsToDetail sections) }

/-- Model of `formatExcelEvent` (`chat.ts` lines 1229-1346). -/
def formatExcelEvent (event : ToolEvent) (parsed : Value) : ToolEvent :=
  let next := { event with
    headline :=
      match event.headline with
      | some h => some h
      | none => some "Excel analysis complete" }
  let tables0 := collectExcelTables parsed
  let analyses0 := collectExcelAnalyses parsed
  let scanned :=
    match parsed with
    | .str s =>
      let extracted := parseExcelSearchOutputString s
      (if tables0.length = 0 && extracted.tables.length > 0 then extracted.tables else tables0,
       if analyses0.length = 0 && extracted.analyses.length > 0 then extracted.analyses
       else analyses0,
       match extracted.query with
       | some q => if q ≠ "" then some ("Query: " ++ shorten q 160) else none
       | none => none)
    | _ => (tables0, analyses0, none)
  let tables := scanned.1
  let analyses := scanned.2.1
  let queryLine := scanned.2.2
  let sections :=
    match tables with
    | primary :: moreTables =>
      let summaryLines :=
        (match queryLine with
         | some q => [q]
         | none => []) ++
        (match primary.summary with
         | some s => if s ≠ "" then [s] else []
         | none => []) ++
        (match primary.rowCount with
         | some n => ["Rows matched: " ++ n.repr]
         | none => []) ++
        (match analyses.getLast? with
         | some fa => if fa ≠ "" then [shorten fa 320] else []
         | none => [])
      let sections1 :=
        if summaryLines.length > 0 then
          [({ title := some "Summary", lines := summaryLines, footnote := none } :
            ToolEventDetailSection)]
        else []
      let sampleRows := primary.rows.take 3
      let sections2 :=
        if sampleRows.length > 0 then
          let columnKeys :=
            if primary.columns.length > 0 then primary.columns
            else
              match sampleRows.head? with
              | some row => row.map (fun f => f.1)
              | none => []
          let rowLines := (sampleRows.enum).map (fun p =>
            let cells := String.intercalate " | " (columnKeys.map (fun column =>
              match row_lookup p.2 column with
              | some v =>
                match v with
                | .undef => column ++ ": N/A"
                | .null => column ++ ": N/A"
                | .str s =>
                  if s = "" then column ++ ": N/A"
                  else column ++ ": " ++ shorten (jsString v) 60
                | _ => column ++ ": " ++ shorten (jsString v) 60
              | none => column ++ ": N/A"))
            Nat.repr (p.1 + 1) ++ ". " ++ cells)
          let remaining := primary.rows.length - sampleRows.length
          sections1 ++
            [({ title := some "Sample rows"
                lines := rowLines
                footnote :=
                  if remaining > 0 then
                    some ("... " ++ Nat.repr remaining ++ " additional row" ++
                      (if remaining = 1 then "" else "s") ++ " not shown.")
                  else none } : ToolEventDetailSection)]
        else sections1
      if moreTables.length > 0 then
        sections2 ++
          [({ title := none
              lines := ["Additional tables: " ++ Nat.repr moreTables.length ++
                " more result set" ++ (if moreTables.length = 1 then "" else "s") ++ " available."]
              footnote := none } : ToolEventDetailSection)]
      else sections2
    | [] => []
  let sections :=
    if sections.length = 0 then
      match analyses.getLast? with
      | some last =>
        [({ title := some "Analysis"
            lines :=
              (match queryLine with
               | some q => [q]
               | none => []) ++ [shorten last 320]
            footnote := none } : ToolEventDetailSection)]
      | none => []
    else sections
  let sections :=
    if sections.length = 0 then
      [({ title := none
          lines :=
            (match queryLine with
             | some q => [q]
             | none => []) ++ ["No structured output returned from the Excel tool."]
          footnote := none } : ToolEventDetailSection)]
    else sections
  { next with detailSections := some sections, detail := some (sectionsToDetail sections) }
where
  /-- Record field lookup `row[column]` for a recovered excel row. -/
  row_lookup (row : List (String × Value)) (column : String) : Option Value :=
    match row.find? (fun f => f.1 == column) with
    | some f => some f.2
    | none => none

/-- Model of `completeToolEvent` (`chat.ts` lines 369-401): mark completed,
store the coerced output, clear sections, and dispatch on the tool name to a
formatter (generic fallback: promote the default headline and render the
output through `normaliseDetail`). -/
def completeToolEvent (event : ToolEvent) (toolName : String) (rawOutput : Value) : ToolEvent :=
  let parsedOutput := coerceJson rawOutput
  let next := { event with
    status := .completed
    rawOutput := parsedOutput
    detailSections := none }
  if toolName == "tavily_search" then formatTavilyEvent next parsedOutput
  else if toolName == "document_retriever" then formatDocumentEvent next parsedOutput
  else if toolName == "memory_retriever" then formatMemoryEvent next parsedOutput
  else if toolName == "excel_search_tool" then formatExcelEvent next parsedOutput
  else if toolName == "location_weather_tool" then formatLocationWeatherEvent next parsedOutput
  else
    let next2 :=
      if !(optStrTruthy next.headline) || next.headline == some "Assistant tool engaged" then
        { next with headline := some "Assistant tool completed" }
      else next
    match normaliseDetail parsedOutput with
    | some fd => if fd ≠ "" then { next2 with detail := some fd } else next2
    | none => next2

/-- Role of a transcript entry (`MessageEntry.role`). -/
inductive Role where
  | user : Role
  | assistant : Role
deriving DecidableEq

/-- The `MessageEntry` record of the client types (`types/chat.ts`): one
visible transcript turn. The constant discriminator `type: 'message'` is not
modelled (it has a single value). `none` models an absent optional field. -/
structure MessageEntry where
  id : String
  role : Role
  content : String
  isStreaming : Option Bool
  toolEvents : Option (List ToolEvent)

/-- The `ServerEvent` wire union of the client types (`types/chat.ts`). -/
inductive ServerEvent where
  | checkpoint (checkpoint_id : String) : ServerEvent
  | response_chunk (text : String) (checkpoint_id : String) : ServerEvent
  | final_response (text : String) (checkpoint_id : String) : ServerEvent
  | tool_call (tool_name : String) (input : Value) (checkpoint_id : String) : ServerEvent
  | tool_result (tool_name : String) (output : Value) (checkpoint_id : String) : ServerEvent
  | error (message : String) (checkpoint_id : Option String) : ServerEvent
  | done (checkpoint_id : String) : ServerEvent

/-- Model of JavaScript `Array.prototype.findIndex` restricted to a Boolean
predicate. -/
def jsFindIndex (p : MessageEntry → Bool) : List MessageEntry → Option Nat
  | [] => none
  | e :: rest =>
    if p e then some 0
    else
      match jsFindIndex p rest with
      | some i => some (i + 1)
      | none => none

/-- Model of the `upsertAssistant` helper of `handleEvent`
(`useChatPage.ts` lines 118-140): locate the addressed assistant entry, feed
it to the updater, and replace, delete, append or leave the list unchanged
according to the updater's result. -/
def upsertAssistant (assistantMessageId : String)
    (updater : Option MessageEntry → Option MessageEntry)
    (prev : List MessageEntry) : List MessageEntry :=
  match jsFindIndex
    (fun item => item.id == assistantMessageId && item.role == Role.assistant) prev with
  | some index =>
    match updater (prev.get? index) with
    | none => prev.eraseIdx index
    | some nextEntry => prev.set index nextEntry
  | none =>
    match updater none with
    | none => prev
    | some nextEntry => prev ++ [nextEntry]

/-- The transient assistant entry materialised by the `entry ?? ({...})`
base pattern of `handleEvent`. -/
def emptyAssistantEntry (assistantMessageId : String) (streaming : Bool) : MessageEntry :=
  { id := assistantMessageId
    role := .assistant
    content := ""
    isStreaming := some streaming
    toolEvents := some [] }

/-- The `existingEvents.map` with a `matched` flag of the `tool_result` case
(`useChatPage.ts` lines 236-243): complete the first running tool event with
a matching name, leave everything else unchanged, and report whether a match
was found. -/
def completeFirstMatch (tool_name : String) (output : Value) :
    List ToolEvent → List ToolEvent × Bool
  | [] => ([], false)
  | event :: rest =>
    if event.toolName == tool_name && event.status == ToolStatus.running then
      (completeToolEvent event tool_name output :: rest, true)
    else
      let tail := completeFirstMatch tool_name output rest
      (event :: tail.1, tail.2)

/-- Model of the transcript effect of one `handleEvent` dispatch
(`useChatPage.ts` lines 117-307). `fresh` stands for the value of the
`generateId()` call of the case (at most one per event); the conversation-id
bookkeeping and the external conversation-list refresh are not part of the
transcript state and are not modelled. -/
def applyEvent (assistantMessageId fresh : String) (payload : ServerEvent)
    (prev : List MessageEntry) : List MessageEntry :=
  match payload with
  | .checkpoint _ => prev
  | .response_chunk text _ =>
    upsertAssistant assistantMessageId (fun entry =>
      let base :=
        match entry with
        | some e => e
        | none => emptyAssistantEntry assistantMessageId true
      some { base with content := base.content ++ text, isStreaming := some true }) prev
  | .final_response text _ =>
    let finalText := text
    let trimmedFinal := jsTrim finalText
    upsertAssistant assistantMessageId (fun entry =>
      match entry with
      | none =>
        if trimmedFinal = "" then none
        else some
          { id := assistantMessageId
            role := .assistant
            content := finalText
            isStreaming := some false
            toolEvents := some [] }
      | some e =>
        let trimmedExisting := jsTrim e.content
        if trimmedFinal = "" ∧ trimmedExisting = "" then
          some { e with isStreaming := some false }
        else some
          { e with
            content := if trimmedFinal ≠ "" then finalText else e.content
            isStreaming := some false }) prev
  | .tool_call tool_name input _ =>
    let toolInput := coerceJson input
    let event := createToolEvent tool_name toolInput none fresh
    upsertAssistant assistantMessageId (fun entry =>
      let base :=
        match entry with
        | some e => e
        | none => emptyAssistantEntry assistantMessageId true
      let toolEvents :=
        match base.toolEvents with
        | some evs => evs ++ [event]
        | none => [event]
      some { base with toolEvents := some toolEvents }) prev
  | .tool_result tool_name output _ =>
    upsertAssistant assistantMessageId (fun entry =>
      let base :=
        match entry with
        | some e => e
        | none => emptyAssistantEntry assistantMessageId true
      let existingEvents :=
        match base.toolEvents with
        | some evs => evs
        | none => []
      let step := completeFirstMatch tool_name output existingEvents
      let nextEvents :=
        if step.2 then step.1
        else
          step.1 ++
            [completeToolEvent (createToolEvent tool_name .undef none fresh) tool_name output]
      some { base with toolEvents := some nextEvents }) prev
  | .error message _ =>
    let errorEvent : ToolEvent :=
      { id := fresh
        toolName := "Agent"
        status := .error
        rawInput := .undef
        rawOutput := .undef
        headline := none
        detail := some message
        links := none
        detailSections := none }
    upsertAssistant assistantMessageId (fun entry =>
      let base :=
        match entry with
        | some e => e
        | none => emptyAssistantEntry assistantMessageId false
      let toolEvents :=
        match base.toolEvents with
        | some evs => evs ++ [errorEvent]
        | none => [errorEvent]
      some { base with
        content := message
        isStreaming := some false
        toolEvents := some toolEvents }) prev
  | .done _ =>
    upsertAssistant assistantMessageId (fun entry =>
      match entry with
      | none => none
      | some e =>
        let hasContent := decide ((jsTrim e.content).length > 0)
        let hasTools :=
          match e.toolEvents with
          | some evs => decide (evs.length > 0)
          | none => false
        if !hasContent && !hasTools then none
        else if e.isStreaming ≠ some true then some e
        else some { e with isStreaming := some false }) prev

/-- Apply a server-event sequence in arrival order through the streaming
reducer, starting from an empty transcript; the `n`-th event's
`generateId()` result is modelled as `live-n`. -/
def runLive (assistantMessageId : String) (events : List ServerEvent) : List MessageEntry :=
  (events.foldl (fun st e =>
    (applyEvent assistantMessageId ("live-" ++ Nat.repr st.2) e st.1, st.2 + 1))
    (([] : List MessageEntry), 0)).1

/-- The fresh assistant placeholder pushed by `submit` before streaming
starts (`useChatPage.ts` lines 335-342). -/
def initialAssistantEntry (assistantMessageId : String) : MessageEntry :=
  { id := assistantMessageId
    role := .assistant
    content := ""
    isStreaming := some true
    toolEvents := some [] }

/-- Kind discriminator of a persisted message. -/
inductive MsgKind where
  | message : MsgKind
  | tool : MsgKind
deriving DecidableEq

/-- Role of a persisted message. -/
inductive PRole where
  | user : PRole
  | assistant : PRole
  | tool : PRole
deriving DecidableEq

/-- Persisted tool status (`'start' | 'complete' | 'error'`). -/
inductive PToolStatus where
  | start : PToolStatus
  | complete : PToolStatus
  | error : PToolStatus
deriving DecidableEq

/-- The `ConversationMessageResponse` record of the client types
(`types/conversation.ts`): one flat persisted message. `none` models both an
absent optional field and `null` (for `tool_call_id`, where both are falsy);
`Value.undef` models an absent `tool_input`/`tool_output`. -/
structure ConversationMessageResponse where
  kind : MsgKind
  role : PRole
  content : String
  tool_name : Option String
  tool_status : Option PToolStatus
  tool_call_id : Option String
  tool_input : Value
  tool_output : Value

/-- Model of the tool-message branch of `buildChatEntriesFromDetail`
(`chat.ts` lines 167-194): seed a tool event, finalize it when the record
carries completion data, and apply the error status and content-detail
fallbacks. -/
def replayToolMsg (conversationId : String) (index : Nat)
    (message : ConversationMessageResponse) : ToolEvent :=
  let toolName :=
    match message.tool_name with
    | some n => n
    | none => "tool"
  let seedId :=
    match message.tool_call_id with
    | some cid =>
      if cid ≠ "" then conversationId ++ "-" ++ cid
      else conversationId ++ "-tool-" ++ Nat.repr index
    | none => conversationId ++ "-tool-" ++ Nat.repr index
  let event := createToolEvent toolName message.tool_input (some seedId) seedId
  let event :=
    if message.tool_status = some .complete || !message.tool_output.isUndef then
      completeToolEvent event toolName message.tool_output
    else event
  if message.tool_status = some .error then
    { event with
      status := .error
      detail := some
        (if message.content ≠ "" then message.content
         else
           match event.detail with
           | some d => if d ≠ "" then d else "Tool execution failed."
           | none => "Tool execution failed.") }
  else if decide (message.content ≠ "") &&
      (match event.detail with
       | some d => decide (d = "")
       | none => true) then
    { event with detail := some message.content }
  else event

/-- Index of the last assistant entry (the backward scan of
`ensureAssistantHost`, `chat.ts` lines 132-152). -/
def lastAssistantIdx (entries : List MessageEntry) : Option Nat :=
  match entries with
  | [] => none
  | e :: rest =>
    match lastAssistantIdx rest with
    | some i => some (i + 1)
    | none => if e.role == Role.assistant then some 0 else none

/-- Model of `ensureAssistantHost` followed by the merge of pending tool
events into the host (`chat.ts` lines 132-152 and the two call sites). -/
def attachPending (conversationId : String) (index : Nat)
    (entries : List MessageEntry) (pending : List ToolEvent) : List MessageEntry :=
  match lastAssistantIdx entries with
  | some i =>
    match entries.get? i with
    | some host =>
      let mergedEvents :=
        match host.toolEvents with
        | some evs => evs ++ pending
        | none => pending
      entries.set i { host with toolEvents := some mergedEvents }
    | none => entries
  | none =>
    let placeholder : MessageEntry :=
      { id := conversationId ++ "-assistant-" ++ Nat.repr index
        role := .assistant
        content := ""
        isStreaming := some false
        toolEvents := some [] }
    let mergedEvents :=
      match placeholder.toolEvents with
      | some evs => evs ++ pending
      | none => pending
    entries ++ [{ placeholder with toolEvents := some mergedEvents }]

/-- One iteration of the `messages.forEach` body of
`buildChatEntriesFromDetail` (`chat.ts` lines 166-251), transforming the
`(entries, pending)` state. -/
def buildStep (conversationId : String) (index : Nat)
    (message : ConversationMessageResponse)
    (entries : List MessageEntry) (pending : List ToolEvent) :
    List MessageEntry × List ToolEvent :=
  if message.kind = .tool ∨ message.role = .tool then
    (entries, pending ++ [replayToolMsg conversationId index message])
  else if message.role = .assistant ∨ message.role = .user then
    let afterUserAttach :=
      if message.role = .user ∧ pending.length > 0 then
        (attachPending conversationId index entries pending, ([] : List ToolEvent))
      else (entries, pending)
    let entries1 := afterUserAttach.1
    let pending1 := afterUserAttach.2
    let rawContent := message.content
    let content := if message.role = .user then rawContent else jsTrim rawContent
    if message.role = .assistant then
      let drained := pending1
      match entries1.getLast? with
      | some lastEntry =>
        if lastEntry.role = .assistant ∧ (jsTrim lastEntry.content).length = 0 then
          let mergedEvents :=
            match lastEntry.toolEvents with
            | some evs => evs ++ drained
            | none => drained
          let updated :=
            if mergedEvents.length > 0 then
              { lastEntry with
                content := content
                isStreaming := some false
                toolEvents := some mergedEvents }
            else
              { lastEntry with content := content, isStreaming := some false }
          (entries1.dropLast ++ [updated], [])
        else
          (entries1 ++
            [{ id := conversationId ++ "-" ++ Nat.repr index
               role := .assistant
               content := content
               isStreaming := some false
               toolEvents := if drained.length > 0 then some drained else none }], [])
      | none =>
        (entries1 ++
          [{ id := conversationId ++ "-" ++ Nat.repr index
             role := .assistant
             content := content
             isStreaming := some false
             toolEvents := if drained.length > 0 then some drained else none }], [])
    else
      (entries1 ++
        [{ id := conversationId ++ "-" ++ Nat.repr index
           role := .user
           content := content
           isStreaming := some false
           toolEvents := none }], pending1)
  else (entries, pending)

/-- The indexed fold of `buildChatEntriesFromDetail` over the message list. -/
def buildLoop (conversationId : String) (index : Nat)
    (messages : List ConversationMessageResponse)
    (entries : List MessageEntry) (pending : List ToolEvent) :
    List MessageEntry × List ToolEvent :=
  match messages with
  | [] => (entries, pending)
  | message :: rest =>
    let st := buildStep conversationId index message entries pending
    buildLoop conversationId (index + 1) rest st.1 st.2

/-- Model of `buildChatEntriesFromDetail` (`chat.ts` lines 158-271): replay a
flat persisted message list into transcript entries, attach any trailing
pending tool events, and prune empty assistant entries. -/
def buildChatEntriesFromDetail (conversationId : String)
    (messages : List ConversationMessageResponse) : List MessageEntry :=
  let looped := buildLoop conversationId 0 messages [] []
  let entries :=
    if looped.2.length > 0 then
      attachPending conversationId messages.length looped.1 looped.2
    else looped.1
  entries.filter (fun entry =>
    !(entry.role == Role.assistant) ||
    decide ((jsTrim entry.content).length > 0) ||
    decide ((match entry.toolEvents with
             | some evs => evs.length
             | none => 0) > 0))

/-- Split a buffer at its first newline, returning the prefix (newline
excluded) and the remainder (model of `buffer.indexOf('\n')` plus the two
`slice` calls of the read loop). -/
def splitAtNewline : List Char → Option (List Char × List Char)
  | [] => none
  | c :: cs =>
    if c = '\n' then some ([], cs)
    else
      match splitAtNewline cs with
      | some p => some (c :: p.1, p.2)
      | none => none

/-- The inner `while (newlineIndex !== -1)` loop of
`ChatService.streamChatResponse` (`services/chat.ts` lines 56-69): extract
every complete line, trim it, and keep the non-empty ones (those handed to
`JSON.parse`); returns the emitted lines and the remaining buffer. Each
iteration consumes at least one character, so the fuel (buffer length plus
one) dominates the iteration count. -/
def drainBuffer (fuel : Nat) (buffer : List Char) : List String × List Char :=
  match fuel with
  | 0 => ([], buffer)
  | fuel + 1 =>
    match splitAtNewline buffer with
    | none => ([], buffer)
    | some (lineChars, rest) =>
      let line := jsTrim ⟨lineChars⟩
      let tail := drainBuffer fuel rest
      (if line ≠ "" then line :: tail.1 else tail.1, tail.2)

/-- Feed one decoded text chunk to the read loop: append to the buffer and
drain all complete lines (`buffer += decoder.decode(...)` plus the inner
loop). The byte-to-text conversion of `TextDecoder` with `stream: true` is
assumed correct (the spec assumes valid text encoding), so chunks are
modelled at text level. -/
def feedChunk (st : List String × List Char) (chunk : String) : List String × List Char :=
  let buffer := st.2 ++ chunk.data
  let drained := drainBuffer (buffer.length + 1) buffer
  (st.1 ++ drained.1, drained.2)

/-- The lines handed to `JSON.parse` by the whole read loop over a chunked
stream, including the final trailing-buffer flush (`services/chat.ts` lines
50-80). -/
def streamEmittedLines (chunks : List String) : List String :=
  let looped := chunks.foldl feedChunk ([], [])
  let tail := jsTrim ⟨looped.2⟩
  if tail ≠ "" then looped.1 ++ [tail] else looped.1

/-- Newline decomposition of a whole character stream: the complete
(newline-terminated) segments and the trailing segment. -/
def splitNl : List Char → List (List Char) × List Char
  | [] => ([], [])
  | c :: cs =>
    let p := splitNl cs
    if c = '\n' then ([] :: p.1, p.2)
    else
      match p.1 with
      | l :: ls => ((c :: l) :: ls, p.2)
      | [] => ([], c :: p.2)

/-- Chunk-independent specification of the emitted lines: every
newline-separated segment of the whole stream (trailing segment included),
trimmed, with whitespace-only segments dropped. -/
def emittedLinesSpec (stream : List Char) : List String :=
  let p := splitNl stream
  ((p.1 ++ [p.2]).map (fun seg => jsTrim ⟨seg⟩)).filter (fun line => line ≠ "")

/-- Spec-modelled flat persisted projection of one tool event. The backend
that persists messages is not part of `src/`; this projection follows the
spec's Persisted Message description (§3) and replay rules (§4.5): the tool
status mirrors the lifecycle state, input/output mirror the raw payloads,
and an error event's detail is persisted as the message content (the spec's
"`content` as detail fallback"). -/
def projectToolEvent (ev : ToolEvent) : ConversationMessageResponse :=
  { kind := .tool
    role := .tool
    content :=
      match ev.status with
      | .error =>
        (match ev.detail with
         | some d => d
         | none => "")
      | _ => ""
    tool_name := some ev.toolName
    tool_status :=
      match ev.status with
      | .running => some .start
      | .completed => some .complete
      | .error => some .error
    tool_call_id := none
    tool_input := ev.rawInput
    tool_output := ev.rawOutput }

/-- Spec-modelled flat persisted projection of one transcript entry: the
entry's tool events in order, followed by its message row (§3, §4.5). -/
def projectEntry (e : MessageEntry) : List ConversationMessageResponse :=
  match e.role with
  | .user =>
    [{ kind := .message
       role := .user
       content := e.content
       tool_name := none
       tool_status := none
       tool_call_id := none
       tool_input := .undef
       tool_output := .undef }]
  | .assistant =>
    (match e.toolEvents with
     | some evs => evs
     | none => []).map projectToolEvent ++
    [{ kind := .message
       role := .assistant
       content := e.content
       tool_name := none
       tool_status := none
       tool_call_id := none
       tool_input := .undef
       tool_output := .undef }]

/-- Spec-modelled flat persisted projection of a transcript (§8's
"corresponding flat persisted-message projection of T"). -/
def projectTranscript : List MessageEntry → List ConversationMessageResponse
  | [] => []
  | e :: rest => projectEntry e ++ projectTranscript rest

/-- Structural equality of tool events up to the `id` field, with the
`headline` of error-status events also disregarded (an error event replayed
from persistence carries the generic creation headline which the live error
path never sets). -/
def toolEquiv (a b : ToolEvent) : Prop :=
  a.toolName = b.toolName ∧ a.status = b.status ∧ a.rawInput = b.rawInput ∧
  a.rawOutput = b.rawOutput ∧ a.detail = b.detail ∧ a.links = b.links ∧
  a.detailSections = b.detailSections ∧ (a.status = .error ∨ a.headline = b.headline)

/-- Structural equality of transcript entries up to `id` and `isStreaming`,
comparing content modulo whitespace trimming and treating an absent
tool-event list as empty. -/
def entryEquiv (a b : MessageEntry) : Prop :=
  a.role = b.role ∧ jsTrim a.content = jsTrim b.content ∧
  List.Forall₂ toolEquiv
    (match a.toolEvents with
     | some evs => evs
     | none => [])
    (match b.toolEvents with
     | some evs => evs
     | none => [])

/-- Pointwise `entryEquiv` over whole transcripts. -/
def transcriptEquiv (a b : List MessageEntry) : Prop :=
  List.Forall₂ entryEquiv a b

/-- Strict structural equality of tool events up to `id` only (the
comparison the round-trip claim states literally). -/
def toolEqMod (a b : ToolEvent) : Prop :=
  a.toolName = b.toolName ∧ a.status = b.status ∧ a.rawInput = b.rawInput ∧
  a.rawOutput = b.rawOutput ∧ a.headline = b.headline ∧ a.detail = b.detail ∧
  a.links = b.links ∧ a.detailSections = b.detailSections

/-- Structural equality of entries up to `id` and `isStreaming` exactly as
the round-trip claim states it (content compared verbatim). -/
def entryEqMod (a b : MessageEntry) : Prop :=
  a.role = b.role ∧ a.content = b.content ∧
  List.Forall₂ toolEqMod
    (match a.toolEvents with
     | some evs => evs
     | none => [])
    (match b.toolEvents with
     | some evs => evs
     | none => [])

/-- Pointwise `entryEqMod` over whole transcripts. -/
def transcriptEqMod (a b : List MessageEntry) : Prop :=
  List.Forall₂ entryEqMod a b

/-- Per-event side conditions of the amended round-trip property: tool
payloads must be stable under a second `coerceJson` pass (a doubly
JSON-encoded string changes on each pass, and the live path coerces inputs
once more than the replay path), and error messages must be non-empty (an
empty one is indistinguishable from an absent persisted content). -/
def eventOk : ServerEvent → Prop
  | .tool_call _ input _ => coerceJson (coerceJson input) = coerceJson input
  | .tool_result _ output _ => coerceJson (coerceJson output) = coerceJson output
  | .error message _ => message ≠ ""
  | _ => True

/-- A tool event is replay-faithful when replaying its spec-modelled
persisted projection reproduces it up to `toolEquiv`, for every conversation
id and index (ids do not participate in the equivalence). -/
def Faithful (ev : ToolEvent) : Prop :=
  ∀ conv idx, toolEquiv (replayToolMsg conv idx (projectToolEvent ev)) ev

/-- Syntactic characterization of the tool events the live reducer can put
into an entry under the round-trip side conditions: a creation-shaped
running event with a coerce-stable input, a completion of such an event with
a coerce-stable output, or the error event of the `error` transition with a
non-empty message. -/
def GoodEvent (ev : ToolEvent) : Prop :=
  (∃ p, coerceJson p = p ∧
    ev = { createToolEventCore ev.toolName p with id := ev.id }) ∨
  (∃ p out, coerceJson p = p ∧ coerceJson (coerceJson out) = coerceJson out ∧
    ev = { completeToolEvent (createToolEventCore ev.toolName p) ev.toolName out with
           id := ev.id }) ∨
  (∃ m, m ≠ "" ∧
    ev = { id := ev.id, toolName := "Agent", status := .error, rawInput := .undef,
           rawOutput := .undef, headline := none, detail := some m, links := none,
           detailSections := none })

/-- Reducer-state invariant of the round-trip proof: the transcript is empty
or a single addressed assistant entry all of whose tool events are good. -/
def ReducerInv (aid : String) (s : List MessageEntry) : Prop :=
  s = [] ∨ ∃ e, s = [e] ∧ e.id = aid ∧ e.role = .assistant ∧
    ∀ ev ∈ (match e.toolEvents with
            | some evs => evs
            | none => []), GoodEvent ev

/-- Replay of a list of consecutive persisted tool messages starting at a
given index (the shape `buildLoop` produces for a run of tool rows). -/
def replayToolMsgs (conv : String) (idx : Nat) :
    List ConversationMessageResponse → List ToolEvent
  | [] => []
  | m :: rest => replayToolMsg conv idx m :: replayToolMsgs conv (idx + 1) rest

theorem dropWhile_self_idem {p : Char → Bool} (l : List Char) :
    (l.dropWhile p).dropWhile p = l.dropWhile p := by
  induction l with
  | nil => rfl
  | cons c cs ih =>
    by_cases h : p c
    · simp [List.dropWhile_cons, h, ih]
    · simp [List.dropWhile_cons, h]

theorem dropWhile_head_false {p : Char → Bool} {l rest : List Char} {c : Char}
    (h : l.dropWhile p = c :: rest) : p c = false := by
  induction l with
  | nil => simp at h
  | cons d ds ih =>
    by_cases hd : p d
    · exact ih (by simpa [List.dropWhile_cons, hd] using h)
    · rw [List.dropWhile_cons] at h
      simp [hd] at h
      simp [← h.1, hd]

theorem dropWhile_eq_self_of_head {p : Char → Bool} {l : List Char}
    (h : ∀ c rest, l = c :: rest → p c = false) : l.dropWhile p = l := by
  cases l with
  | nil => rfl
  | cons c cs => simp [List.dropWhile_cons, h c cs rfl]

theorem jsTrim_idem (s : String) : jsTrim (jsTrim s) = jsTrim s := by
  obtain ⟨l⟩ := s
  show jsTrim ⟨((l.dropWhile isJsWhitespace).reverse.dropWhile
    isJsWhitespace).reverse⟩ = _
  set t := l.dropWhile isJsWhitespace with ht
  set w := t.reverse.dropWhile isJsWhitespace with hw
  have hwt : w.reverse.dropWhile isJsWhitespace = w.reverse := by
    apply dropWhile_eq_self_of_head
    intro c rest hc
    have hprefix : w.reverse <+: t := by
      have hsuf : w <:+ t.reverse := by
        rw [hw]; exact List.dropWhile_suffix _
      have := List.reverse_prefix.mpr hsuf
      simpa using this
    obtain ⟨tail, htail⟩ := hprefix
    have : t = c :: (rest ++ tail) := by rw [← htail, hc]; simp
    exact dropWhile_head_false (ht ▸ this)
  have hww : w.dropWhile isJsWhitespace = w := by
    apply dropWhile_eq_self_of_head
    intro c rest hc
    exact dropWhile_head_false (hw ▸ hc)
  show (⟨((w.reverse.dropWhile isJsWhitespace).reverse.dropWhile
    isJsWhitespace).reverse⟩ : String) = ⟨w.reverse⟩
  rw [hwt]
  simp [hww]

theorem jsTrim_mem {s : String} {c : Char} (h : c ∈ (jsTrim s).data) : c ∈ s.data := by
  obtain ⟨l⟩ := s
  have h1 : c ∈ ((l.dropWhile isJsWhitespace).reverse.dropWhile isJsWhitespace).reverse := h
  rw [List.mem_reverse] at h1
  have h2 := (List.dropWhile_sublist (l := (l.dropWhile isJsWhitespace).reverse)
    (p := isJsWhitespace)).mem h1
  rw [List.mem_reverse] at h2
  exact (List.dropWhile_sublist (l := l) (p := isJsWhitespace)).mem h2

/-- C7 counterexample: for `max = 2` (so `max - 3` is negative) the
JavaScript negative-slice semantics keep all but the last character, so
`shorten("abcdef", 2)` is `"abcde..."` rather than the ellipsis alone that
the claimed "first `max-3` characters" rule would give. -/
theorem shorten_claim_counterexample :
    shorten "abcdef" 2 = "abcde..." ∧
    shorten "abcdef" 2 ≠ (⟨"abcdef".data.take (2 - 3)⟩ : String) ++ "..." := by
  constructor
  · rfl
  · decide

/-- C7 (amended): `shorten(s, max)` returns `s` unchanged when
`s.length ≤ max`; when additionally `3 ≤ max` is required, a longer string
becomes its first `max - 3` characters followed by `"..."` (for `max < 3`
the `slice(0, max-3)` call falls into negative-index semantics instead);
`shorten("abcdefghij", 6) = "abc..."`, and the default maximum is 72. -/
theorem shorten_spec :
    (∀ (s : String) (max : Nat), s.length ≤ max → shorten s max = s) ∧
    (∀ (s : String) (max : Nat), 3 ≤ max → max < s.length →
      shorten s max = (⟨s.data.take (max - 3)⟩ : String) ++ "...") ∧
    shorten "abcdefghij" 6 = "abc..." ∧
    (∀ s, shortenDefault s = shorten s 72) := by
  refine ⟨?_, ?_, by rfl, fun s => rfl⟩
  · intro s max h
    simp [shorten, h]
  · intro s max h3 hlen
    have hdl : s.data.length = s.length := rfl
    have hnot : ¬(s.length ≤ max) := by omega
    simp only [shorten, hnot, if_false, jsSliceTo]
    have he : ¬((max : Int) - 3 < 0) := by omega
    have hgt : ¬((max : Int) - 3 > ((s.data.length : Int))) := by omega
    rw [if_neg he, if_neg hgt]
    have ht : ((max : Int) - 3).toNat = max - 3 := by omega
    rw [ht]

/-- C7 witness: the amended truncation rule at `s = "abcdefghij"`, `max = 6`. -/
theorem shorten_spec_witness :
    shorten "abcdefghij" 6 = (⟨"abcdefghij".data.take (6 - 3)⟩ : String) ++ "..." :=
  shorten_spec.2.1 "abcdefghij" 6 (by decide) (by decide)

/-- C8: on the input containing `ToolMessage(content='{"columns":["a"],"rows":[[1]]}')`
followed by `AIMessage(content='done')`, the quoted-literal scanner of the
tabular formatter recovers exactly one table with column list `["a"]` and one
row binding column `"a"` to `1`, and exactly one analysis string `"done"`;
moreover the quoted-literal scanner decodes `\n`, `\t`, `\r` escapes, passes
any other backslash-escaped character through literally, and reports the
position one past the closing quote. -/
theorem excel_scanner_spec :
    parseExcelSearchOutputString
        "ToolMessage(content='\x7b\"columns\":[\"a\"],\"rows\":[[1]]\x7d'), AIMessage(content='done')" =
      { tables := [{ columns := ["a"], rows := [[("a", Value.num 1)]],
                     summary := none, rowCount := some 1 }]
        analyses := ["done"]
        query := none } ∧
    parseQuotedString "'a\\nb'" 0 = some ("a\nb", 6) ∧
    parseQuotedString "\"x\\ty\"" 0 = some ("x\ty", 6) ∧
    parseQuotedString "'p\\rq'" 0 = some ("p\rq", 6) ∧
    parseQuotedString "'a\\xb'" 0 = some ("axb", 6) ∧
    parseQuotedString "'unterminated" 0 = none := by
  exact ⟨rfl, rfl, rfl, rfl, rfl, rfl⟩

theorem splitNl_append (a b : List Char) :
    splitNl (a ++ b) =
      ((splitNl a).1 ++ (splitNl ((splitNl a).2 ++ b)).1,
       (splitNl ((splitNl a).2 ++ b)).2) := by
  induction a with
  | nil => simp [splitNl]
  | cons c a ih =>
    by_cases hc : c = '\n'
    · subst hc
      show splitNl ('\n' :: (a ++ b)) = _
      simp only [splitNl, if_pos rfl, ih]
      simp
    · show splitNl (c :: (a ++ b)) = _
      simp only [splitNl, if_neg hc, ih]
      cases h1 : (splitNl a).1 with
      | cons l ls => simp [h1]
      | nil =>
        cases h2 : (splitNl ((splitNl a).2 ++ b)).1 <;>
          simp [splitNl, if_neg hc, h1, h2]

theorem splitNl_no_newline (l : List Char) :
    (∀ seg ∈ (splitNl l).1, '\n' ∉ seg) ∧ '\n' ∉ (splitNl l).2 := by
  induction l with
  | nil => simp [splitNl]
  | cons c cs ih =>
    by_cases hc : c = '\n'
    · subst hc
      simp only [splitNl, if_pos rfl]
      exact ⟨by simpa using ih.1, ih.2⟩
    · simp only [splitNl, if_neg hc]
      cases h1 : (splitNl cs).1 with
      | nil =>
        refine ⟨by simp, ?_⟩
        simp only [List.mem_cons]
        rintro (h | h)
        · exact hc h.symm
        · exact ih.2 h
      | cons l ls =>
        refine ⟨?_, ih.2⟩
        intro seg hseg
        rcases List.mem_cons.mp hseg with h | h
        · subst h
          simp only [List.mem_cons]
          rintro (h | h)
          · exact hc h.symm
          · exact (ih.1 l (by simp [h1])) h
        · exact ih.1 seg (by simp [h1, h])

theorem splitNl_of_no_newline {l : List Char} (h : '\n' ∉ l) : splitNl l = ([], l) := by
  induction l with
  | nil => rfl
  | cons c cs ih =>
    have hc : ¬(c = '\n') := fun hh => h (by simp [hh])
    have hcs : '\n' ∉ cs := fun hh => h (by simp [hh])
    simp [splitNl, if_neg hc, ih hcs]

theorem splitAtNewline_none {buffer : List Char} (h : splitAtNewline buffer = none) :
    splitNl buffer = ([], buffer) := by
  induction buffer with
  | nil => rfl
  | cons c cs ih =>
    by_cases hc : c = '\n'
    · simp [splitAtNewline, hc] at h
    · simp only [splitAtNewline, if_neg hc] at h
      cases hs : splitAtNewline cs with
      | some p => simp [hs] at h
      | none => simp [splitNl, if_neg hc, ih hs]

theorem splitAtNewline_some {buffer line rest : List Char}
    (h : splitAtNewline buffer = some (line, rest)) :
    splitNl buffer = (line :: (splitNl rest).1, (splitNl rest).2) ∧
      rest.length < buffer.length := by
  induction buffer generalizing line rest with
  | nil => simp [splitAtNewline] at h
  | cons c cs ih =>
    by_cases hc : c = '\n'
    · subst hc
      have heq : splitAtNewline ('\n' :: cs) = some ([], cs) := by
        simp [splitAtNewline]
      rw [heq] at h
      have h3 := Option.some.inj h
      cases h3
      exact ⟨by simp [splitNl], by simp⟩
    · simp only [splitAtNewline, if_neg hc] at h
      cases hs : splitAtNewline cs with
      | none => simp [hs] at h
      | some p =>
        obtain ⟨l0, r0⟩ := p
        simp only [hs, Option.map_some, Option.some.injEq, Prod.mk.injEq] at h
        obtain ⟨h1, h2⟩ := h
        subst h2
        obtain ⟨ih1, ih2⟩ := ih hs
        constructor
        · rw [← h1]
          simp [splitNl, if_neg hc, ih1]
        · simpa using Nat.lt_succ_of_lt ih2

theorem drainBuffer_eq (fuel : Nat) (buffer : List Char) (h : buffer.length < fuel) :
    drainBuffer fuel buffer =
      (((splitNl buffer).1.map (fun seg => jsTrim ⟨seg⟩)).filter (fun line => line ≠ ""),
       (splitNl buffer).2) := by
  induction fuel generalizing buffer with
  | zero => omega
  | succ f ih =>
    cases hs : splitAtNewline buffer with
    | none =>
      rw [splitAtNewline_none hs]
      simp [drainBuffer, hs]
    | some p =>
      obtain ⟨line, rest⟩ := p
      obtain ⟨h1, h2⟩ := splitAtNewline_some hs
      have hr : rest.length < f := by omega
      simp only [drainBuffer, hs, ih rest hr, h1]
      by_cases hline : jsTrim ⟨line⟩ ≠ ""
      · simp [hline]
      · simp [hline]

theorem feed_fold (chunks : List String) (out : List String) (buf : List Char)
    (hbuf : '\n' ∉ buf) :
    chunks.foldl feedChunk (out, buf) =
      (out ++ (((splitNl (buf ++ chunks.flatMap (fun c => c.data))).1.map
          (fun seg => jsTrim ⟨seg⟩)).filter (fun line => line ≠ "")),
       (splitNl (buf ++ chunks.flatMap (fun c => c.data))).2) := by
  induction chunks generalizing out buf with
  | nil =>
    rw [List.foldl_nil]
    simp [splitNl_of_no_newline hbuf]
  | cons c rest ih =>
    rw [List.foldl_cons]
    have hfeed : feedChunk (out, buf) c =
        (out ++ (((splitNl (buf ++ c.data)).1.map
            (fun seg => jsTrim ⟨seg⟩)).filter (fun line => line ≠ "")),
         (splitNl (buf ++ c.data)).2) := by
      simp only [feedChunk]
      rw [drainBuffer_eq ((buf ++ c.data).length + 1) (buf ++ c.data) (by omega)]
    rw [hfeed]
    have htail : '\n' ∉ (splitNl (buf ++ c.data)).2 := (splitNl_no_newline _).2
    rw [ih _ _ htail]
    have happ := splitNl_append (buf ++ c.data) (rest.flatMap (fun s => s.data))
    have hJ : buf ++ (c :: rest).flatMap (fun s => s.data) =
        (buf ++ c.data) ++ rest.flatMap (fun s => s.data) := by
      simp [List.flatMap_cons, List.append_assoc]
    rw [hJ, happ]
    simp [List.filter_append, List.append_assoc]

/-- C5 counterexample: the read loop trims each extracted line and skips
whitespace-only lines, so for the chunking `[" a \n"]` it emits `"a"` rather
than the claimed verbatim newline-stripped line `" a "` (dropping the
surrounding whitespace bytes), and an empty line is never emitted at all. -/
theorem stream_frame_counterexample :
    streamEmittedLines [" a \n"] = ["a"] ∧
    streamEmittedLines [" a \n"] ≠ [" a "] ∧
    streamEmittedLines ["x\n", "\n"] = ["x"] := by
  refine ⟨rfl, ?_, rfl⟩
  intro h
  have := List.head_eq_of_cons_eq h
  exact absurd this (by decide)

/-- C5 (amended): for every NDJSON input and every way of splitting it into
chunks, the read loop hands to the event parser exactly the whitespace-trimmed
forms of the newline-separated segments of the whole stream, in order,
omitting whitespace-only segments and including the trailing segment that
lacked a terminating newline; no emitted line contains an embedded newline,
and the emitted sequence depends only on the concatenation of the chunks
(not on the chunk boundaries). The claim's verbatim-emission reading
("trailing newline stripped", "never drops a byte") fails because of the
`.trim()` call, see the counterexample. -/
theorem stream_frame_decoding_spec :
    (∀ chunks, streamEmittedLines chunks =
      emittedLinesSpec (chunks.flatMap (fun c => c.data))) ∧
    (∀ chunks line, line ∈ streamEmittedLines chunks → '\n' ∉ line.data) ∧
    (∀ chunks₁ chunks₂,
      chunks₁.flatMap (fun c => c.data) = chunks₂.flatMap (fun c => c.data) →
      streamEmittedLines chunks₁ = streamEmittedLines chunks₂) := by
  have hmain : ∀ chunks : List String, streamEmittedLines chunks =
      emittedLinesSpec (chunks.flatMap (fun c => c.data)) := by
    intro chunks
    have hfold := feed_fold chunks [] [] (by simp)
    simp only [streamEmittedLines, hfold, List.nil_append, emittedLinesSpec]
    by_cases htail : jsTrim ⟨(splitNl (chunks.flatMap (fun c => c.data))).2⟩ ≠ ""
    · simp [htail, List.filter_append]
    · simp only [ne_eq, not_not] at htail
      simp [htail, List.filter_append]
  refine ⟨hmain, ?_, ?_⟩
  · intro chunks line hline
    rw [hmain chunks] at hline
    simp only [emittedLinesSpec, List.mem_filter, List.mem_map] at hline
    obtain ⟨⟨seg, hseg, hsegeq⟩, _⟩ := hline
    intro hnl
    rw [← hsegeq] at hnl
    have hmem := jsTrim_mem hnl
    rcases List.mem_append.mp hseg with h | h
    · exact (splitNl_no_newline (chunks.flatMap (fun c => c.data))).1 seg h hmem
    · have : seg = (splitNl (chunks.flatMap (fun c => c.data))).2 := by simpa using h
      rw [this] at hmem
      exact (splitNl_no_newline (chunks.flatMap (fun c => c.data))).2 hmem
  · intro c1 c2 h
    rw [hmain c1, hmain c2, h]

/-- C5 witness: the chunk-boundary-independence part of the amended claim at
two concrete chunkings of the same NDJSON stream. -/
theorem stream_frame_decoding_spec_witness :
    streamEmittedLines ["ab\ncd"] = streamEmittedLines ["ab", "\nc", "d"] :=
  stream_frame_decoding_spec.2.2 ["ab\ncd"] ["ab", "\nc", "d"] rfl

theorem upsertAssistant_empty (aid : String)
    (updater : Option MessageEntry → Option MessageEntry) :
    upsertAssistant aid updater [] =
      match updater none with
      | none => []
      | some nextEntry => [nextEntry] := by
  simp only [upsertAssistant, jsFindIndex]
  cases updater none <;> rfl

theorem upsertAssistant_singleton (aid : String) (e : MessageEntry)
    (updater : Option MessageEntry → Option MessageEntry)
    (hid : e.id = aid) (hrole : e.role = .assistant) :
    upsertAssistant aid updater [e] =
      match updater (some e) with
      | none => []
      | some nextEntry => [nextEntry] := by
  have hp : (e.id == aid && e.role == Role.assistant) = true := by
    rw [hid, hrole]; simp
  simp only [upsertAssistant, jsFindIndex, hp, if_true]
  have hg : [e].get? 0 = some e := rfl
  rw [hg]
  cases updater (some e) <;> rfl

/-- C2 counterexample: an existing entry receiving `final_response " Hello "`
keeps the final text untrimmed (the claim says the trimmed text is stored),
and an absent entry receiving a non-empty but whitespace-only final text is
not created (the claim's emptiness test ignores trimming). -/
theorem final_response_counterexample :
    ((runLive "a" [.response_chunk "Hi" "c", .final_response " Hello " "c"]).map
      (fun e => e.content) = [" Hello "]) ∧
    " Hello " ≠ jsTrim " Hello " ∧
    applyEvent "a" "f" (.final_response "  " "c") [] = [] := by
  exact ⟨rfl, by decide, rfl⟩

/-- C2 (amended): applying `final_response` — if no addressed entry exists
and the final text is empty after trimming, the transcript is unchanged; if
none exists and the trimmed text is non-empty, a new finalized entry holding
the raw final text is appended; if the entry exists, its content is
overwritten with the raw (untrimmed) final text exactly when the trimmed
text is non-empty and otherwise keeps the accumulated content, and the entry
is marked finalized (`isStreaming = false`) in every case; in particular
`response_chunk "Hel"` then `final_response "Hello world"` yields a single
finalized entry with content `"Hello world"`. -/
theorem final_response_spec :
    (∀ aid fresh text cid, jsTrim text = "" →
      applyEvent aid fresh (.final_response text cid) [] = []) ∧
    (∀ aid fresh text cid, jsTrim text ≠ "" →
      applyEvent aid fresh (.final_response text cid) [] =
        [{ id := aid, role := .assistant, content := text,
           isStreaming := some false, toolEvents := some [] }]) ∧
    (∀ aid fresh text cid e, e.id = aid → e.role = .assistant →
      applyEvent aid fresh (.final_response text cid) [e] =
        [{ e with
             content := (if jsTrim text ≠ "" then text else e.content)
             isStreaming := some false }]) ∧
    ((runLive "a" [.response_chunk "Hel" "c", .final_response "Hello world" "c"]).map
      (fun e => (e.content, e.isStreaming)) = [("Hello world", some false)]) := by
  refine ⟨?_, ?_, ?_, rfl⟩
  · intro aid fresh text cid h
    simp only [applyEvent, upsertAssistant_empty, h]
    rfl
  · intro aid fresh text cid h
    simp only [applyEvent, upsertAssistant_empty]
    simp [h]
  · intro aid fresh text cid e hid hrole
    simp only [applyEvent, upsertAssistant_singleton aid e _ hid hrole]
    by_cases hf : jsTrim text = ""
    · by_cases he : jsTrim e.content = ""
      · simp [hf, he]
      · simp [hf, he]
    · simp [hf]

/-- C2 witness: the amended present-entry rule at a concrete entry and a
whitespace-padded final text. -/
theorem final_response_spec_witness :
    applyEvent "a" "f" (.final_response " Hello " "c")
        [{ id := "a", role := .assistant, content := "Hi",
           isStreaming := some true, toolEvents := some [] }] =
      [{ id := "a", role := .assistant,
         content := (if jsTrim " Hello " ≠ "" then " Hello " else "Hi"),
         isStreaming := some false, toolEvents := some [] }] :=
  final_response_spec.2.2.1 "a" "f" " Hello " "c"
    { id := "a", role := .assistant, content := "Hi",
      isStreaming := some true, toolEvents := some [] } rfl rfl

set_option maxHeartbeats 1000000 in
theorem formatTavilyEvent_status (e : ToolEvent) (p : Value) :
    (formatTavilyEvent e p).status = e.status := by
  unfold formatTavilyEvent
  dsimp only
  repeat' (first | rfl | split)

set_option maxHeartbeats 1000000 in
theorem formatDocumentEvent_status (e : ToolEvent) (p : Value) :
    (formatDocumentEvent e p).status = e.status := by
  unfold formatDocumentEvent
  dsimp only
  repeat' (first | rfl | split)

set_option maxHeartbeats 1000000 in
theorem formatMemoryEvent_status (e : ToolEvent) (p : Value) :
    (formatMemoryEvent e p).status = e.status := by
  unfold formatMemoryEvent
  dsimp only
  repeat' (first | rfl | split)

set_option maxHeartbeats 1000000 in
theorem formatLocationWeatherEvent_status (e : ToolEvent) (p : Value) :
    (formatLocationWeatherEvent e p).status = e.status := by
  unfold formatLocationWeatherEvent
  dsimp only
  repeat' (first | rfl | split)

theorem formatExcelEvent_status (e : ToolEvent) (p : Value) :
    (formatExcelEvent e p).status = e.status := by
  rfl

set_option maxHeartbeats 1000000 in
theorem formatTavilyEvent_toolName (e : ToolEvent) (p : Value) :
    (formatTavilyEvent e p).toolName = e.toolName := by
  unfold formatTavilyEvent
  dsimp only
  repeat' (first | rfl | split)

set_option maxHeartbeats 1000000 in
theorem formatDocumentEvent_toolName (e : ToolEvent) (p : Value) :
    (formatDocumentEvent e p).toolName = e.toolName := by
  unfold formatDocumentEvent
  dsimp only
  repeat' (first | rfl | split)

set_option maxHeartbeats 1000000 in
theorem formatMemoryEvent_toolName (e : ToolEvent) (p : Value) :
    (formatMemoryEvent e p).toolName = e.toolName := by
  unfold formatMemoryEvent
  dsimp only
  repeat' (first | rfl | split)

set_option maxHeartbeats 1000000 in
theorem formatLocationWeatherEvent_toolName (e : ToolEvent) (p : Value) :
    (formatLocationWeatherEvent e p).toolName = e.toolName := by
  unfold formatLocationWeatherEvent
  dsimp only
  repeat' (first | rfl | split)

theorem formatExcelEvent_toolName (e : ToolEvent) (p : Value) :
    (formatExcelEvent e p).toolName = e.toolName := by
  rfl

set_option maxHeartbeats 1000000 in
theorem formatTavilyEvent_rawInput (e : ToolEvent) (p : Value) :
    (formatTavilyEvent e p).rawInput = e.rawInput := by
  unfold formatTavilyEvent
  dsimp only
  repeat' (first | rfl | split)

set_option maxHeartbeats 1000000 in
theorem formatDocumentEvent_rawInput (e : ToolEvent) (p : Value) :
    (formatDocumentEvent e p).rawInput = e.rawInput := by
  unfold formatDocumentEvent
  dsimp only
  repeat' (first | rfl | split)

set_option maxHeartbeats 1000000 in
theorem formatMemoryEvent_rawInput (e : ToolEvent) (p : Value) :
    (formatMemoryEvent e p).rawInput = e.rawInput := by
  unfold formatMemoryEvent
  dsimp only
  repeat' (first | rfl | split)

set_option maxHeartbeats 1000000 in
theorem formatLocationWeatherEvent_rawInput (e : ToolEvent) (p : Value) :
    (formatLocationWeatherEvent e p).rawInput = e.rawInput := by
  unfold formatLocationWeatherEvent
  dsimp only
  repeat' (first | rfl | split)

theorem formatExcelEvent_rawInput (e : ToolEvent) (p : Value) :
    (formatExcelEvent e p).rawInput = e.rawInput := by
  rfl

set_option maxHeartbeats 1000000 in
theorem formatTavilyEvent_rawOutput (e : ToolEvent) (p : Value) :
    (formatTavilyEvent e p).rawOutput = e.rawOutput := by
  unfold formatTavilyEvent
  dsimp only
  repeat' (first | rfl | split)

set_option maxHeartbeats 1000000 in
theorem formatDocumentEvent_rawOutput (e : ToolEvent) (p : Value) :
    (formatDocumentEvent e p).rawOutput = e.rawOutput := by
  unfold formatDocumentEvent
  dsimp only
  repeat' (first | rfl | split)

set_option maxHeartbeats 1000000 in
theorem formatMemoryEvent_rawOutput (e : ToolEvent) (p : Value) :
    (formatMemoryEvent e p).rawOutput = e.rawOutput := by
  unfold formatMemoryEvent
  dsimp only
  repeat' (first | rfl | split)

set_option maxHeartbeats 1000000 in
theorem formatLocationWeatherEvent_rawOutput (e : ToolEvent) (p : Value) :
    (formatLocationWeatherEvent e p).rawOutput = e.rawOutput := by
  unfold formatLocationWeatherEvent
  dsimp only
  repeat' (first | rfl | split)

theorem formatExcelEvent_rawOutput (e : ToolEvent) (p : Value) :
    (formatExcelEvent e p).rawOutput = e.rawOutput := by
  rfl

set_option maxHeartbeats 1000000 in
theorem formatTavilyEvent_idComm (e : ToolEvent) (i : String) (p : Value) :
    formatTavilyEvent { e with id := i } p = { formatTavilyEvent e p with id := i } := by
  unfold formatTavilyEvent
  dsimp only
  repeat' (first | rfl | split)

set_option maxHeartbeats 1000000 in
theorem formatDocumentEvent_idComm (e : ToolEvent) (i : String) (p : Value) :
    formatDocumentEvent { e with id := i } p = { formatDocumentEvent e p with id := i } := by
  unfold formatDocumentEvent
  dsimp only
  repeat' (first | rfl | split)

set_option maxHeartbeats 1000000 in
theorem formatMemoryEvent_idComm (e : ToolEvent) (i : String) (p : Value) :
    formatMemoryEvent { e with id := i } p = { formatMemoryEvent e p with id := i } := by
  unfold formatMemoryEvent
  dsimp only
  repeat' (first | rfl | split)

set_option maxHeartbeats 1000000 in
theorem formatLocationWeatherEvent_idComm (e : ToolEvent) (i : String) (p : Value) :
    formatLocationWeatherEvent { e with id := i } p =
      { formatLocationWeatherEvent e p with id := i } := by
  unfold formatLocationWeatherEvent
  dsimp only
  repeat' (first | rfl | split)

theorem formatExcelEvent_idComm (e : ToolEvent) (i : String) (p : Value) :
    formatExcelEvent { e with id := i } p = { formatExcelEvent e p with id := i } := by
  rfl

theorem createToolEvent_eq_core (toolName : String) (rawInput : Value)
    (seedId : Option String) (fresh : String) :
    createToolEvent toolName rawInput seedId fresh =
      { createToolEventCore toolName rawInput with
        id :=
          match seedId with
          | some s => s
          | none => fresh } := by
  rfl

theorem createToolEventCore_status (toolName : String) (rawInput : Value) :
    (createToolEventCore toolName rawInput).status = .running := by
  rfl

theorem createToolEventCore_toolName (toolName : String) (rawInput : Value) :
    (createToolEventCore toolName rawInput).toolName = toolName := by
  rfl

theorem createToolEventCore_rawInput (toolName : String) (rawInput : Value) :
    (createToolEventCore toolName rawInput).rawInput = coerceJson rawInput := by
  rfl

theorem createToolEventCore_rawOutput (toolName : String) (rawInput : Value) :
    (createToolEventCore toolName rawInput).rawOutput = .undef := by
  rfl

theorem completeToolEvent_out_coerce (e : ToolEvent) (n : String) (o₁ o₂ : Value)
    (h : coerceJson o₁ = coerceJson o₂) :
    completeToolEvent e n o₁ = completeToolEvent e n o₂ := by
  unfold completeToolEvent
  rw [h]

theorem completeToolEvent_idComm (e : ToolEvent) (i : String) (n : String) (o : Value) :
    completeToolEvent { e with id := i } n o = { completeToolEvent e n o with id := i } := by
  unfold completeToolEvent
  dsimp only
  split
  · exact formatTavilyEvent_idComm
      { e with status := .completed, rawOutput := coerceJson o, detailSections := none } i
      (coerceJson o)
  · split
    · exact formatDocumentEvent_idComm
        { e with status := .completed, rawOutput := coerceJson o, detailSections := none } i
        (coerceJson o)
    · split
      · exact formatMemoryEvent_idComm
          { e with status := .completed, rawOutput := coerceJson o, detailSections := none } i
          (coerceJson o)
      · split
        · exact formatExcelEvent_idComm
            { e with status := .completed, rawOutput := coerceJson o, detailSections := none } i
            (coerceJson o)
        · split
          · exact formatLocationWeatherEvent_idComm
              { e with status := .completed, rawOutput := coerceJson o, detailSections := none } i
              (coerceJson o)
          · repeat' (first | rfl | split)

theorem completeToolEvent_status (e : ToolEvent) (n : String) (o : Value) :
    (completeToolEvent e n o).status = .completed := by
  unfold completeToolEvent
  dsimp only
  split
  · rw [formatTavilyEvent_status]
  · split
    · rw [formatDocumentEvent_status]
    · split
      · rw [formatMemoryEvent_status]
      · split
        · rw [formatExcelEvent_status]
        · split
          · rw [formatLocationWeatherEvent_status]
          · repeat' (first | rfl | split)

theorem completeToolEvent_toolName (e : ToolEvent) (n : String) (o : Value) :
    (completeToolEvent e n o).toolName = e.toolName := by
  unfold completeToolEvent
  dsimp only
  split
  · rw [formatTavilyEvent_toolName]
  · split
    · rw [formatDocumentEvent_toolName]
    · split
      · rw [formatMemoryEvent_toolName]
      · split
        · rw [formatExcelEvent_toolName]
        · split
          · rw [formatLocationWeatherEvent_toolName]
          · repeat' (first | rfl | split)

theorem completeToolEvent_rawInput (e : ToolEvent) (n : String) (o : Value) :
    (completeToolEvent e n o).rawInput = e.rawInput := by
  unfold completeToolEvent
  dsimp only
  split
  · rw [formatTavilyEvent_rawInput]
  · split
    · rw [formatDocumentEvent_rawInput]
    · split
      · rw [formatMemoryEvent_rawInput]
      · split
        · rw [formatExcelEvent_rawInput]
        · split
          · rw [formatLocationWeatherEvent_rawInput]
          · repeat' (first | rfl | split)

theorem completeToolEvent_rawOutput (e : ToolEvent) (n : String) (o : Value) :
    (completeToolEvent e n o).rawOutput = coerceJson o := by
  unfold completeToolEvent
  dsimp only
  split
  · rw [formatTavilyEvent_rawOutput]
  · split
    · rw [formatDocumentEvent_rawOutput]
    · split
      · rw [formatMemoryEvent_rawOutput]
      · split
        · rw [formatExcelEvent_rawOutput]
        · split
          · rw [formatLocationWeatherEvent_rawOutput]
          · repeat' (first | rfl | split)

theorem completeFirstMatch_skip {n : String} {out : Value} {l₁ : List ToolEvent}
    (ev : ToolEvent) (l₂ : List ToolEvent)
    (h : ∀ x ∈ l₁, ¬(x.toolName = n ∧ x.status = .running))
    (hname : ev.toolName = n) (hstatus : ev.status = .running) :
    completeFirstMatch n out (l₁ ++ ev :: l₂) =
      (l₁ ++ completeToolEvent ev n out :: l₂, true) := by
  induction l₁ with
  | nil =>
    have hb : (ev.toolName == n && ev.status == ToolStatus.running) = true := by
      rw [hname, hstatus]; simp
    simp [completeFirstMatch, hb]
  | cons x xs ih =>
    have hx : ¬(x.toolName = n ∧ x.status = .running) := h x (by simp)
    have hxb : (x.toolName == n && x.status == ToolStatus.running) = false := by
      by_cases h1 : x.toolName = n
      · by_cases h2 : x.status = .running
        · exact absurd ⟨h1, h2⟩ hx
        · simp [h1, h2]
      · simp [h1]
    simp only [List.cons_append, completeFirstMatch, hxb, Bool.false_eq_true, if_false,
      List.append_eq]
    rw [ih (fun y hy => h y (by simp [hy]))]

theorem completeFirstMatch_none {n : String} {out : Value} {l : List ToolEvent}
    (h : ∀ x ∈ l, ¬(x.toolName = n ∧ x.status = .running)) :
    completeFirstMatch n out l = (l, false) := by
  induction l with
  | nil => rfl
  | cons x xs ih =>
    have hx : ¬(x.toolName = n ∧ x.status = .running) := h x (by simp)
    have hxb : (x.toolName == n && x.status == ToolStatus.running) = false := by
      by_cases h1 : x.toolName = n
      · by_cases h2 : x.status = .running
        · exact absurd ⟨h1, h2⟩ hx
        · simp [h1, h2]
      · simp [h1]
    simp only [completeFirstMatch, hxb, Bool.false_eq_true, if_false, List.append_eq]
    rw [ih (fun y hy => h y (by simp [hy]))]

/-- C3: FIFO tool-result matching — when the addressed entry holds a tool
event list `l₁ ++ ev :: l₂` where nothing in `l₁` is a running event of the
result's tool name and `ev` is, applying the `tool_result` transitions
exactly `ev` to its completed form and leaves every other tool event
unchanged; hence two `tool_call`s for `"search"` followed by two
`tool_result`s complete the events in call order, not reversed. -/
theorem tool_result_fifo_spec :
    (∀ aid fresh n out cid e l₁ ev l₂, e.id = aid → e.role = .assistant →
      e.toolEvents = some (l₁ ++ ev :: l₂) →
      (∀ x ∈ l₁, ¬(x.toolName = n ∧ x.status = .running)) →
      ev.toolName = n → ev.status = .running →
      applyEvent aid fresh (.tool_result n out cid) [e] =
        [{ e with toolEvents := some (l₁ ++ completeToolEvent ev n out :: l₂) }]) ∧
    ((runLive "a" [.tool_call "search" (.str "one") "c", .tool_call "search" (.str "two") "c",
        .tool_result "search" (.str "resA") "c", .tool_result "search" (.str "resB") "c"]).map
      (fun e =>
        match e.toolEvents with
        | some evs => evs.map (fun t => (t.rawInput, t.rawOutput, t.status))
        | none => ([] : List (Value × Value × ToolStatus))) =
      [[(Value.str "one", Value.str "resA", ToolStatus.completed),
        (Value.str "two", Value.str "resB", ToolStatus.completed)]]) := by
  constructor
  · intro aid fresh n out cid e l₁ ev l₂ hid hrole htool hskip hname hstatus
    simp only [applyEvent, upsertAssistant_singleton aid e _ hid hrole]
    simp only [htool, completeFirstMatch_skip ev l₂ hskip hname hstatus]
    simp
  · rfl

/-- C3 witness: the FIFO rule at a concrete entry holding one matching
running tool event. -/
theorem tool_result_fifo_spec_witness :
    applyEvent "a" "f" (.tool_result "search" (.str "out") "c")
        [{ id := "a", role := .assistant, content := "",
           isStreaming := some true,
           toolEvents := some ([] ++ createToolEvent "search" (.str "q") none "s0" :: []) }] =
      [{ id := "a", role := .assistant, content := "",
         isStreaming := some true,
         toolEvents := some ([] ++
           completeToolEvent (createToolEvent "search" (.str "q") none "s0") "search"
             (.str "out") :: []) }] :=
  tool_result_fifo_spec.1 "a" "f" "search" (.str "out") "c"
    { id := "a", role := .assistant, content := "", isStreaming := some true,
      toolEvents := some ([] ++ createToolEvent "search" (.str "q") none "s0" :: []) }
    [] (createToolEvent "search" (.str "q") none "s0") [] rfl rfl rfl
    (fun x hx => absurd hx (List.not_mem_nil x)) rfl rfl

/-- C4: out-of-order tool-result recovery — when no tool event of the
addressed entry is a running event of the result's tool name (including a
lone `tool_result` with no prior `tool_call`), the reducer appends exactly
one synthesized tool event that is already `completed` (built from a default
invocation plus the event's output), leaves every existing tool event
unchanged, and produces no error-status event: every `completeToolEvent`
result has status `completed`. -/
theorem tool_result_fallback_spec :
    (∀ aid fresh n out cid e evs, e.id = aid → e.role = .assistant →
      e.toolEvents = some evs →
      (∀ x ∈ evs, ¬(x.toolName = n ∧ x.status = .running)) →
      applyEvent aid fresh (.tool_result n out cid) [e] =
        [{ e with toolEvents := some (evs ++
            [completeToolEvent (createToolEvent n .undef none fresh) n out]) }]) ∧
    (∀ e n out, (completeToolEvent e n out).status = .completed) ∧
    ((runLive "a" [.tool_result "search" (.obj [("k", .str "v")]) "c"]).map
      (fun e =>
        match e.toolEvents with
        | some evs => evs.map (fun t => t.status)
        | none => ([] : List ToolStatus)) = [[ToolStatus.completed]]) := by
  refine ⟨?_, fun e n out => completeToolEvent_status e n out, rfl⟩
  intro aid fresh n out cid e evs hid hrole htool hnone
  simp only [applyEvent, upsertAssistant_singleton aid e _ hid hrole]
  simp only [htool, completeFirstMatch_none hnone]
  simp

/-- C4 witness: the fallback rule at a concrete entry with an empty tool
list receiving a lone `tool_result`. -/
theorem tool_result_fallback_spec_witness :
    applyEvent "a" "f" (.tool_result "search" (.str "out") "c")
        [{ id := "a", role := .assistant, content := "hi",
           isStreaming := some true, toolEvents := some [] }] =
      [{ id := "a", role := .assistant, content := "hi",
         isStreaming := some true,
         toolEvents := some ([] ++
           [completeToolEvent (createToolEvent "search" .undef none "f") "search"
             (.str "out")]) }] :=
  tool_result_fallback_spec.1 "a" "f" "search" (.str "out") "c"
    { id := "a", role := .assistant, content := "hi", isStreaming := some true,
      toolEvents := some [] }
    [] rfl rfl rfl (fun x hx => absurd hx (List.not_mem_nil x))

/-- C6: pruning — a `done` event deletes an assistant entry whose content is
empty and whose tool-event list is empty (so feeding only `checkpoint` and
`done` for a fresh entry yields an empty transcript), and no transcript
returned by the replay builder contains an assistant entry with empty
content and no tool events (the final filter drops them). -/
theorem empty_entry_pruning_spec :
    (∀ aid fresh cid e, e.id = aid → e.role = .assistant → e.content = "" →
      (e.toolEvents = none ∨ e.toolEvents = some []) →
      applyEvent aid fresh (.done cid) [e] = []) ∧
    ([ServerEvent.checkpoint "c", .done "c"].foldl
      (fun st ev => applyEvent "a" "f" ev st) [initialAssistantEntry "a"] = []) ∧
    (∀ conv msgs e, e ∈ buildChatEntriesFromDetail conv msgs →
      ¬(e.role = .assistant ∧ e.content = "" ∧
        (e.toolEvents = none ∨ e.toolEvents = some []))) := by
  refine ⟨?_, rfl, ?_⟩
  · intro aid fresh cid e hid hrole hcontent htools
    have htrim : jsTrim e.content = "" := by rw [hcontent]; rfl
    rcases htools with h | h <;>
      simp [applyEvent, upsertAssistant_singleton aid e _ hid hrole, htrim, h]
  · intro conv msgs e hmem ⟨hrole, hcontent, htools⟩
    unfold buildChatEntriesFromDetail at hmem
    have hp := (List.mem_filter.mp hmem).2
    have htrim : jsTrim e.content = "" := by rw [hcontent]; rfl
    rcases htools with h | h <;> simp [hrole, htrim, h] at hp

/-- C6 witness: the `done` pruning rule at a concrete transient entry. -/
theorem empty_entry_pruning_spec_witness :
    applyEvent "a" "f" (.done "c")
        [{ id := "a", role := .assistant, content := "",
           isStreaming := some true, toolEvents := some [] }] = [] :=
  empty_entry_pruning_spec.1 "a" "f" "c"
    { id := "a", role := .assistant, content := "", isStreaming := some true,
      toolEvents := some [] } rfl rfl rfl (Or.inr rfl)

/-- C9 (implicit): error-status precedence in replay — a persisted tool
message carrying both completion data (a present `tool_output`) and
`tool_status = 'error'` is first run through the completion formatter and
then forced to `error` status: the final status is `error`, the completed
output is retained, and the detail is the persisted content when non-empty,
otherwise the formatter-derived detail when non-empty, otherwise the fixed
string `"Tool execution failed."`. -/
theorem replay_error_precedence_spec (conv : String) (idx : Nat)
    (m : ConversationMessageResponse)
    (herr : m.tool_status = some PToolStatus.error)
    (hout : m.tool_output.isUndef = false) :
    (replayToolMsg conv idx m).status = .error ∧
    (replayToolMsg conv idx m).rawOutput = coerceJson m.tool_output ∧
    (replayToolMsg conv idx m).detail = some
      (if m.content ≠ "" then m.content
       else
         match (completeToolEvent
             (createToolEvent
               (match m.tool_name with
                | some n => n
                | none => "tool")
               m.tool_input
               (some (match m.tool_call_id with
                      | some cid =>
                        if cid ≠ "" then conv ++ "-" ++ cid
                        else conv ++ "-tool-" ++ Nat.repr idx
                      | none => conv ++ "-tool-" ++ Nat.repr idx))
               (match m.tool_call_id with
                | some cid =>
                  if cid ≠ "" then conv ++ "-" ++ cid
                  else conv ++ "-tool-" ++ Nat.repr idx
                | none => conv ++ "-tool-" ++ Nat.repr idx))
             (match m.tool_name with
              | some n => n
              | none => "tool")
             m.tool_output).detail with
         | some d => if d ≠ "" then d else "Tool execution failed."
         | none => "Tool execution failed.") := by
  unfold replayToolMsg
  simp only [herr, hout]
  refine ⟨by simp, ?_, by simp⟩
  simp [completeToolEvent_rawOutput]

/-- C9 witness: the precedence rule at a concrete persisted error-with-output
tool message. -/
theorem replay_error_precedence_spec_witness :
    (replayToolMsg "c" 0
      { kind := .tool, role := .tool, content := "", tool_name := some "search",
        tool_status := some .error, tool_call_id := none,
        tool_input := .undef, tool_output := .str "boom" }).status = .error ∧
    (replayToolMsg "c" 0
      { kind := .tool, role := .tool, content := "", tool_name := some "search",
        tool_status := some .error, tool_call_id := none,
        tool_input := .undef, tool_output := .str "boom" }).rawOutput =
      coerceJson (.str "boom") ∧
    (replayToolMsg "c" 0
      { kind := .tool, role := .tool, content := "", tool_name := some "search",
        tool_status := some .error, tool_call_id := none,
        tool_input := .undef, tool_output := .str "boom" }).detail = some
      (if ("" : String) ≠ "" then ""
       else
         match (completeToolEvent
             (createToolEvent "search" .undef (some ("c" ++ "-tool-" ++ Nat.repr 0))
               ("c" ++ "-tool-" ++ Nat.repr 0)) "search" (.str "boom")).detail with
         | some d => if d ≠ "" then d else "Tool execution failed."
         | none => "Tool execution failed.") :=
  replay_error_precedence_spec "c" 0
    { kind := .tool, role := .tool, content := "", tool_name := some "search",
      tool_status := some .error, tool_call_id := none,
      tool_input := .undef, tool_output := .str "boom" } rfl rfl

theorem strAppend_ne_empty (a b : String) (h : a ≠ "") : a ++ b ≠ "" := by
  intro hh
  apply h
  have hd : (a ++ b).data = a.data ++ b.data := String.data_append a b
  rw [hh] at hd
  have hnil : a.data ++ b.data = [] := hd.symm
  obtain ⟨ha, _⟩ := List.append_eq_nil.mp hnil
  obtain ⟨l⟩ := a
  simp only at ha
  rw [ha]

theorem headlineFallbackNonempty (o : Option String) :
    ∃ h, (if optStrTruthy o then o else some "Assistant tool engaged") = some h ∧ h ≠ "" := by
  cases o with
  | none => exact ⟨"Assistant tool engaged", by simp [optStrTruthy], by decide⟩
  | some s =>
    by_cases hs : s = ""
    · subst hs
      exact ⟨"Assistant tool engaged", by simp [optStrTruthy], by decide⟩
    · exact ⟨s, by simp [optStrTruthy, hs], hs⟩

set_option maxHeartbeats 1000000 in
theorem formatTavilyEvent_headline (e : ToolEvent) (p : Value) :
    (formatTavilyEvent e p).headline =
      (match (if e.rawInput.truthy then extractQuery e.rawInput else none) with
       | some q =>
         if q ≠ "" then some ("Web search - \"" ++ q ++ "\"")
         else if optStrTruthy e.headline then e.headline else some "Web search"
       | none => if optStrTruthy e.headline then e.headline else some "Web search") := by
  unfold formatTavilyEvent
  dsimp only
  repeat' (first | rfl | split)

set_option maxHeartbeats 1000000 in
theorem formatDocumentEvent_headline (e : ToolEvent) (p : Value) :
    (formatDocumentEvent e p).headline =
      (match e.headline with
       | some h => some h
       | none => some "Document retrieval complete") := by
  unfold formatDocumentEvent
  dsimp only
  repeat' (first | rfl | split)

set_option maxHeartbeats 1000000 in
theorem formatMemoryEvent_headline (e : ToolEvent) (p : Value) :
    (formatMemoryEvent e p).headline =
      (match e.headline with
       | some h => some h
       | none => some "Memory recall complete") := by
  unfold formatMemoryEvent
  dsimp only
  repeat' (first | rfl | split)

theorem formatExcelEvent_headline (e : ToolEvent) (p : Value) :
    (formatExcelEvent e p).headline =
      (match e.headline with
       | some h => some h
       | none => some "Excel analysis complete") := by
  rfl

set_option maxHeartbeats 1000000 in
theorem formatLocationWeatherEvent_headline (e : ToolEvent) (p : Value) (h₀ : String)
    (he : e.headline = some h₀) (hne : h₀ ≠ "") :
    ∃ h, (formatLocationWeatherEvent e p).headline = some h ∧ h ≠ "" := by
  unfold formatLocationWeatherEvent
  dsimp only
  rw [he]
  dsimp only
  repeat' split
  all_goals
    first
      | exact ⟨h₀, rfl, hne⟩
      | exact ⟨_, rfl, strAppend_ne_empty _ _ (by decide)⟩

theorem createToolEvent_headline_nonempty (n : String) (v : Value) (s : Option String)
    (f : String) :
    ∃ h, (createToolEvent n v s f).headline = some h ∧ h ≠ "" :=
  headlineFallbackNonempty _

set_option maxHeartbeats 1000000 in
theorem completeToolEvent_headline_nonempty (e : ToolEvent) (n : String) (o : Value)
    (h₀ : String) (he : e.headline = some h₀) (hne : h₀ ≠ "") :
    ∃ h, (completeToolEvent e n o).headline = some h ∧ h ≠ "" := by
  have htruthy : optStrTruthy e.headline = true := by simp [optStrTruthy, he, hne]
  unfold completeToolEvent
  dsimp only
  split
  · rw [formatTavilyEvent_headline]
    dsimp only
    rw [he] at htruthy ⊢
    repeat' split
    all_goals
      first
        | exact ⟨_, rfl, strAppend_ne_empty _ _ (strAppend_ne_empty _ _ (by decide))⟩
        | exact ⟨h₀, rfl, hne⟩
        | simp_all
  · split
    · rw [formatDocumentEvent_headline]
      dsimp only
      rw [he]
      exact ⟨h₀, rfl, hne⟩
    · split
      · rw [formatMemoryEvent_headline]
        dsimp only
        rw [he]
        exact ⟨h₀, rfl, hne⟩
      · split
        · rw [formatExcelEvent_headline]
          dsimp only
          rw [he]
          exact ⟨h₀, rfl, hne⟩
        · split
          · exact formatLocationWeatherEvent_headline _ _ h₀ he hne
          · rw [he] at htruthy ⊢
            repeat' split
            all_goals
              first
                | exact ⟨"Assistant tool completed", rfl, by decide⟩
                | exact ⟨h₀, rfl, hne⟩
                | simp_all

set_option maxHeartbeats 1000000 in
theorem completeToolEvent_generic_headline (e : ToolEvent) (n : String) (o : Value)
    (hn1 : n ≠ "tavily_search") (hn2 : n ≠ "document_retriever")
    (hn3 : n ≠ "memory_retriever") (hn4 : n ≠ "excel_search_tool")
    (hn5 : n ≠ "location_weather_tool")
    (he : e.headline = some "Assistant tool engaged") :
    (completeToolEvent e n o).headline = some "Assistant tool completed" := by
  unfold completeToolEvent
  dsimp only
  have h1 : ¬((n == "tavily_search") = true) := by simp [hn1]
  have h2 : ¬((n == "document_retriever") = true) := by simp [hn2]
  have h3 : ¬((n == "memory_retriever") = true) := by simp [hn3]
  have h4 : ¬((n == "excel_search_tool") = true) := by simp [hn4]
  have h5 : ¬((n == "location_weather_tool") = true) := by simp [hn5]
  rw [if_neg h1, if_neg h2, if_neg h3, if_neg h4, if_neg h5]
  rw [he]
  have hcond : ((!optStrTruthy (some "Assistant tool engaged") ||
      ((some "Assistant tool engaged" : Option String) ==
        some "Assistant tool engaged")) = true) := by decide
  repeat' split
  all_goals rfl

/-- C10 (implicit): headline totality — for every tool name and every input
value the created tool event has a defined non-empty headline (falling back
to `"Assistant tool engaged"`), `completeToolEvent` preserves non-empty
headline definedness for every output value, and on the generic path it
replaces the default headline with `"Assistant tool completed"`. -/
theorem headline_totality_spec :
    (∀ n v s f, ∃ h, (createToolEvent n v s f).headline = some h ∧ h ≠ "") ∧
    (∀ e n o h₀, e.headline = some h₀ → h₀ ≠ "" →
      ∃ h, (completeToolEvent e n o).headline = some h ∧ h ≠ "") ∧
    (∀ e n o, n ≠ "tavily_search" → n ≠ "document_retriever" →
      n ≠ "memory_retriever" → n ≠ "excel_search_tool" →
      n ≠ "location_weather_tool" →
      e.headline = some "Assistant tool engaged" →
      (completeToolEvent e n o).headline = some "Assistant tool completed") :=
  ⟨fun n v s f => createToolEvent_headline_nonempty n v s f,
   fun e n o h₀ he hne => completeToolEvent_headline_nonempty e n o h₀ he hne,
   fun e n o hn1 hn2 hn3 hn4 hn5 he =>
     completeToolEvent_generic_headline e n o hn1 hn2 hn3 hn4 hn5 he⟩

/-- C10 witness: headline preservation through completion at a concrete
generic tool event with an unparseable raw input. -/
theorem headline_totality_spec_witness :
    ∃ h, (completeToolEvent (createToolEvent "mystery" (.str "not json") none "f")
      "mystery" (.str "out")).headline = some h ∧ h ≠ "" :=
  headline_totality_spec.2.1 (createToolEvent "mystery" (.str "not json") none "f")
    "mystery" (.str "out") "Assistant tool engaged" rfl (by decide)

theorem goodEvent_faithful_running (n : String) (p : Value) (i : String)
    (hp : coerceJson p = p) :
    Faithful { createToolEventCore n p with id := i } := by
  intro conv idx
  have hproj : projectToolEvent { createToolEventCore n p with id := i } =
      { kind := .tool, role := .tool, content := "", tool_name := some n,
        tool_status := some .start, tool_call_id := none,
        tool_input := coerceJson p, tool_output := .undef } := by
    unfold projectToolEvent
    dsimp only
    simp [createToolEventCore_status, createToolEventCore_toolName,
      createToolEventCore_rawInput, createToolEventCore_rawOutput]
  rw [hproj]
  have hrep : replayToolMsg conv idx
      ({ kind := .tool, role := .tool, content := "", tool_name := some n,
         tool_status := some .start, tool_call_id := none,
         tool_input := coerceJson p, tool_output := .undef } :
        ConversationMessageResponse) =
      createToolEvent n (coerceJson p) (some (conv ++ "-tool-" ++ Nat.repr idx))
        (conv ++ "-tool-" ++ Nat.repr idx) := by
    rfl
  rw [hrep, hp]
  exact ⟨rfl, rfl, rfl, rfl, rfl, rfl, rfl, Or.inr rfl⟩

theorem goodEvent_faithful_completed (n : String) (p out : Value) (i : String)
    (hp : coerceJson p = p) (hout : coerceJson (coerceJson out) = coerceJson out) :
    Faithful { completeToolEvent (createToolEventCore n p) n out with id := i } := by
  intro conv idx
  have hproj : projectToolEvent
      { completeToolEvent (createToolEventCore n p) n out with id := i } =
      { kind := .tool, role := .tool, content := "", tool_name := some n,
        tool_status := some .complete, tool_call_id := none,
        tool_input := p, tool_output := coerceJson out } := by
    unfold projectToolEvent
    dsimp only
    simp [completeToolEvent_status, completeToolEvent_toolName,
      completeToolEvent_rawInput, completeToolEvent_rawOutput,
      createToolEventCore_status, createToolEventCore_toolName,
      createToolEventCore_rawInput, createToolEventCore_rawOutput, hp]
  rw [hproj]
  have hrep : replayToolMsg conv idx
      ({ kind := .tool, role := .tool, content := "", tool_name := some n,
         tool_status := some .complete, tool_call_id := none,
         tool_input := p, tool_output := coerceJson out } :
        ConversationMessageResponse) =
      completeToolEvent
        (createToolEvent n p (some (conv ++ "-tool-" ++ Nat.repr idx))
          (conv ++ "-tool-" ++ Nat.repr idx)) n (coerceJson out) := by
    rfl
  rw [hrep, createToolEvent_eq_core]
  rw [completeToolEvent_idComm (createToolEventCore n p) _ n (coerceJson out)]
  rw [completeToolEvent_out_coerce (createToolEventCore n p) n (coerceJson out) out hout]
  exact ⟨rfl, rfl, rfl, rfl, rfl, rfl, rfl, Or.inr rfl⟩

theorem goodEvent_faithful_error (m : String) (i : String) (hm : m ≠ "") :
    Faithful { id := i, toolName := "Agent", status := .error, rawInput := .undef,
               rawOutput := .undef, headline := none, detail := some m, links := none,
               detailSections := none } := by
  intro conv idx
  have hproj : projectToolEvent
      { id := i, toolName := "Agent", status := .error, rawInput := .undef,
        rawOutput := .undef, headline := none, detail := some m, links := none,
        detailSections := none } =
      { kind := .tool, role := .tool, content := m, tool_name := some "Agent",
        tool_status := some .error, tool_call_id := none,
        tool_input := .undef, tool_output := .undef } := by
    rfl
  rw [hproj]
  unfold replayToolMsg
  dsimp only
  simp only [hm]
  refine ⟨rfl, rfl, rfl, rfl, ?_, rfl, rfl, Or.inl rfl⟩
  simp [hm]

theorem goodEvent_faithful (ev : ToolEvent) (h : GoodEvent ev) : Faithful ev := by
  rcases h with ⟨p, hp, heq⟩ | ⟨p, out, hp, hout, heq⟩ | ⟨m, hm, heq⟩
  · have := goodEvent_faithful_running ev.toolName p ev.id hp
    rwa [← heq] at this
  · have := goodEvent_faithful_completed ev.toolName p out ev.id hp hout
    rwa [← heq] at this
  · have := goodEvent_faithful_error m ev.id hm
    rwa [← heq] at this

theorem completeToolEvent_id (e : ToolEvent) (n : String) (o : Value) :
    (completeToolEvent e n o).id = e.id := by
  have h := completeToolEvent_idComm e e.id n o
  have he : ({ e with id := e.id } : ToolEvent) = e := rfl
  rw [he] at h
  rw [h]

theorem goodEvent_created (n : String) (input : Value) (fresh : String)
    (h : coerceJson (coerceJson input) = coerceJson input) :
    GoodEvent (createToolEvent n (coerceJson input) none fresh) := by
  left
  exact ⟨coerceJson input, h, rfl⟩

theorem goodEvent_error (m fresh : String) (hm : m ≠ "") :
    GoodEvent { id := fresh, toolName := "Agent", status := .error, rawInput := .undef,
                rawOutput := .undef, headline := none, detail := some m, links := none,
                detailSections := none } := by
  right; right
  exact ⟨m, hm, rfl⟩

theorem goodEvent_fallback (n : String) (out : Value) (fresh : String)
    (hout : coerceJson (coerceJson out) = coerceJson out) :
    GoodEvent (completeToolEvent (createToolEvent n .undef none fresh) n out) := by
  right; left
  refine ⟨.undef, out, rfl, hout, ?_⟩
  have ht : (completeToolEvent (createToolEvent n .undef none fresh) n out).toolName = n := by
    rw [completeToolEvent_toolName]
    rfl
  have hi : (completeToolEvent (createToolEvent n .undef none fresh) n out).id = fresh := by
    rw [completeToolEvent_id]
    rfl
  rw [ht, hi]
  rw [createToolEvent_eq_core, completeToolEvent_idComm]

theorem goodEvent_complete (x : ToolEvent) (n : String) (out : Value)
    (hgx : GoodEvent x) (hname : x.toolName = n) (hrun : x.status = .running)
    (hout : coerceJson (coerceJson out) = coerceJson out) :
    GoodEvent (completeToolEvent x n out) := by
  rcases hgx with ⟨p, hp, heq⟩ | ⟨p, o, _, _, heq⟩ | ⟨m, _, heq⟩
  · right; left
    refine ⟨p, out, hp, hout, ?_⟩
    have ht : (completeToolEvent x n out).toolName = n := by
      rw [completeToolEvent_toolName, hname]
    have hi : (completeToolEvent x n out).id = x.id := completeToolEvent_id x n out
    rw [ht, hi]
    conv_lhs => rw [heq, hname]
    rw [completeToolEvent_idComm]
  · exfalso
    have hst := congrArg ToolEvent.status heq
    rw [hrun] at hst
    simp only [completeToolEvent_status] at hst
    exact absurd hst (by decide)
  · exfalso
    have hst := congrArg ToolEvent.status heq
    rw [hrun] at hst
    exact absurd (show ToolStatus.running = ToolStatus.error from hst) (by decide)

theorem goodEvent_completeFirst (n : String) (out : Value) (evs : List ToolEvent)
    (hout : coerceJson (coerceJson out) = coerceJson out)
    (hgood : ∀ ev ∈ evs, GoodEvent ev) :
    ∀ ev ∈ (completeFirstMatch n out evs).1, GoodEvent ev := by
  induction evs with
  | nil => simp [completeFirstMatch]
  | cons x xs ih =>
    by_cases hx : (x.toolName == n && x.status == ToolStatus.running) = true
    · simp only [completeFirstMatch, hx, if_true]
      intro ev hev
      rcases List.mem_cons.mp hev with h | h
      · subst h
        have hname : x.toolName = n := by
          have := (Bool.and_eq_true _ _).mp hx
          exact eq_of_beq this.1
        have hrun : x.status = ToolStatus.running := by
          have := (Bool.and_eq_true _ _).mp hx
          exact eq_of_beq this.2
        exact goodEvent_complete x n out (hgood x (by simp)) hname hrun hout
      · exact hgood ev (by simp [h])
    · simp only [completeFirstMatch, hx, Bool.false_eq_true, if_false]
      intro ev hev
      rcases List.mem_cons.mp hev with h | h
      · exact h ▸ hgood x (by simp)
      · exact ih (fun y hy => hgood y (by simp [hy])) ev h

theorem mem_appendEvents {ev event : ToolEvent} {o : Option (List ToolEvent)}
    (hev : ev ∈ (match o with | some evs => evs ++ [event] | none => [event])) :
    ev ∈ (match o with | some evs => evs | none => ([] : List ToolEvent)) ∨ ev = event := by
  cases o with
  | none =>
    exact Or.inr (List.mem_singleton.mp hev)
  | some evs =>
    rcases List.mem_append.mp hev with h | h
    · exact Or.inl h
    · exact Or.inr (List.mem_singleton.mp h)

theorem goodEvent_nextEvents (n : String) (out : Value) (fresh : String) (evs : List ToolEvent)
    (hout : coerceJson (coerceJson out) = coerceJson out)
    (hgood : ∀ ev ∈ evs, GoodEvent ev) :
    ∀ ev ∈ (if (completeFirstMatch n out evs).2 then (completeFirstMatch n out evs).1
            else (completeFirstMatch n out evs).1 ++
              [completeToolEvent (createToolEvent n .undef none fresh) n out]), GoodEvent ev := by
  intro ev hev
  split at hev
  · exact goodEvent_completeFirst n out evs hout hgood ev hev
  · rcases List.mem_append.mp hev with h | h
    · exact goodEvent_completeFirst n out evs hout hgood ev h
    · cases List.mem_singleton.mp h
      exact goodEvent_fallback n out fresh hout

theorem applyEvent_inv (aid fresh : String) (p : ServerEvent) (s : List MessageEntry)
    (hs : ReducerInv aid s) (hp : eventOk p) :
    ReducerInv aid (applyEvent aid fresh p s) := by
  rcases hs with hnil | ⟨e, hse, hid, hrole, hgood⟩
  · subst hnil
    cases p with
    | checkpoint c => exact Or.inl rfl
    | response_chunk t c =>
      exact Or.inr ⟨_, rfl, rfl, rfl, fun ev hev => absurd hev (List.not_mem_nil ev)⟩
    | final_response t c =>
      simp only [applyEvent, upsertAssistant_empty]
      by_cases htf : jsTrim t = ""
      · rw [if_pos htf]
        exact Or.inl rfl
      · rw [if_neg htf]
        exact Or.inr ⟨_, rfl, rfl, rfl, fun ev hev => absurd hev (List.not_mem_nil ev)⟩
    | tool_call n input c =>
      refine Or.inr ⟨_, rfl, rfl, rfl, ?_⟩
      intro ev hev
      have hev2 : ev ∈ [createToolEvent n (coerceJson input) none fresh] := hev
      cases List.mem_singleton.mp hev2
      exact goodEvent_created n input fresh hp
    | tool_result n out c =>
      refine Or.inr ⟨_, rfl, rfl, rfl, ?_⟩
      intro ev hev
      have hev2 : ev ∈ [completeToolEvent (createToolEvent n .undef none fresh) n out] := hev
      cases List.mem_singleton.mp hev2
      exact goodEvent_fallback n out fresh hp
    | error msg c =>
      refine Or.inr ⟨_, rfl, rfl, rfl, ?_⟩
      intro ev hev
      have hev2 : ev ∈ [({ id := fresh, toolName := "Agent", status := .error,
                           rawInput := .undef, rawOutput := .undef, headline := none,
                           detail := some msg, links := none,
                           detailSections := none } : ToolEvent)] := hev
      cases List.mem_singleton.mp hev2
      exact goodEvent_error msg fresh hp
    | done c => exact Or.inl rfl
  · subst hse
    cases p with
    | checkpoint c => exact Or.inr ⟨e, rfl, hid, hrole, hgood⟩
    | response_chunk t c =>
      simp only [applyEvent, upsertAssistant_singleton aid e _ hid hrole]
      exact Or.inr ⟨_, rfl, hid, hrole, hgood⟩
    | final_response t c =>
      simp only [applyEvent, upsertAssistant_singleton aid e _ hid hrole]
      by_cases htf : jsTrim t = "" ∧ jsTrim e.content = ""
      · rw [if_pos htf]
        exact Or.inr ⟨_, rfl, hid, hrole, hgood⟩
      · rw [if_neg htf]
        exact Or.inr ⟨_, rfl, hid, hrole, hgood⟩
    | tool_call n input c =>
      simp only [applyEvent, upsertAssistant_singleton aid e _ hid hrole]
      refine Or.inr ⟨_, rfl, hid, hrole, ?_⟩
      intro ev hev
      have hev2 : ev ∈ (match e.toolEvents with
        | some evs => evs ++ [createToolEvent n (coerceJson input) none fresh]
        | none => [createToolEvent n (coerceJson input) none fresh]) := hev
      rcases mem_appendEvents hev2 with h | h
      · exact hgood ev h
      · cases h
        exact goodEvent_created n input fresh hp
    | tool_result n out c =>
      simp only [applyEvent, upsertAssistant_singleton aid e _ hid hrole]
      exact Or.inr ⟨_, rfl, hid, hrole, goodEvent_nextEvents n out fresh _ hp hgood⟩
    | error msg c =>
      simp only [applyEvent, upsertAssistant_singleton aid e _ hid hrole]
      refine Or.inr ⟨_, rfl, hid, hrole, ?_⟩
      intro ev hev
      have hev2 : ev ∈ (match e.toolEvents with
        | some evs => evs ++ [({ id := fresh, toolName := "Agent", status := .error,
                                 rawInput := .undef, rawOutput := .undef, headline := none,
                                 detail := some msg, links := none,
                                 detailSections := none } : ToolEvent)]
        | none => [({ id := fresh, toolName := "Agent", status := .error,
                      rawInput := .undef, rawOutput := .undef, headline := none,
                      detail := some msg, links := none,
                      detailSections := none } : ToolEvent)]) := hev
      rcases mem_appendEvents hev2 with h | h
      · exact hgood ev h
      · cases h
        exact goodEvent_error msg fresh hp
    | done c =>
      simp only [applyEvent, upsertAssistant_singleton aid e _ hid hrole]
      by_cases hb : (!decide ((jsTrim e.content).length > 0) &&
          !(match e.toolEvents with
            | some evs => decide (evs.length > 0)
            | none => false)) = true
      · rw [if_pos hb]
        exact Or.inl rfl
      · rw [if_neg hb]
        by_cases hstr : e.isStreaming ≠ some true
        · rw [if_pos hstr]
          exact Or.inr ⟨e, rfl, hid, hrole, hgood⟩
        · rw [if_neg hstr]
          exact Or.inr ⟨_, rfl, hid, hrole, hgood⟩

theorem foldl_inv (aid : String) (es : List ServerEvent) :
    ∀ (s : List MessageEntry) (k : Nat), ReducerInv aid s → (∀ e ∈ es, eventOk e) →
      ReducerInv aid ((es.foldl (fun st e =>
        (applyEvent aid ("live-" ++ Nat.repr st.2) e st.1, st.2 + 1)) (s, k)).1) := by
  induction es with
  | nil =>
    intro s k hs _
    simpa using hs
  | cons e rest ih =>
    intro s k hs hok
    simp only [List.foldl_cons]
    exact ih _ _ (applyEvent_inv aid _ e s hs (hok e (by simp)))
      (fun x hx => hok x (by simp [hx]))

theorem runLive_inv (aid : String) (es : List ServerEvent)
    (h : ∀ e ∈ es, eventOk e) : ReducerInv aid (runLive aid es) :=
  foldl_inv aid es [] 0 (Or.inl rfl) h

theorem foldl_snd (aid : String) (es : List ServerEvent) :
    ∀ (s : List MessageEntry) (k : Nat), ((es.foldl (fun st e =>
      (applyEvent aid ("live-" ++ Nat.repr st.2) e st.1, st.2 + 1)) (s, k))).2 
      = k + es.length := by
  induction es with
  | nil =>
    intro s k
    simp
  | cons e rest ih =>
    intro s k
    simp only [List.foldl_cons]
    rw [ih]
    simp only [List.length_cons]
    omega

theorem runLive_append_done (aid c : String) (es : List ServerEvent) :
    runLive aid (es ++ [.done c]) =
      applyEvent aid ("live-" ++ Nat.repr es.length) (.done c) (runLive aid es) := by
  unfold runLive
  rw [List.foldl_append]
  simp only [List.foldl_cons, List.foldl_nil]
  rw [foldl_snd]
  simp

theorem done_state (aid fresh c : String) (s : List MessageEntry) (hs : ReducerInv aid s) :
    applyEvent aid fresh (.done c) s = [] ∨
    ∃ e, applyEvent aid fresh (.done c) s = [e] ∧ e.role = .assistant ∧
      (∀ ev ∈ (match e.toolEvents with | some evs => evs | none => []), GoodEvent ev) ∧
      ((jsTrim e.content).length > 0 ∨
        (match e.toolEvents with | some evs => evs | none => ([] : List ToolEvent)) ≠ []) := by
  rcases hs with hnil | ⟨e, hse, hid, hrole, hgood⟩
  · subst hnil
    exact Or.inl rfl
  · subst hse
    simp only [applyEvent, upsertAssistant_singleton aid e _ hid hrole]
    by_cases hb : (!decide ((jsTrim e.content).length > 0) &&
        !(match e.toolEvents with
          | some evs => decide (evs.length > 0)
          | none => false)) = true
    · rw [if_pos hb]
      exact Or.inl rfl
    · rw [if_neg hb]
      have hkeep : (jsTrim e.content).length > 0 ∨
          (match e.toolEvents with | some evs => evs | none => ([] : List ToolEvent)) ≠ [] := by
        rcases Bool.eq_false_or_eq_true (decide ((jsTrim e.content).length > 0)) with hC | hC
        · left
          exact of_decide_eq_true hC
        · right
          rcases Bool.eq_false_or_eq_true (match e.toolEvents with
            | some evs => decide (evs.length > 0)
            | none => false) with hT | hT
          · cases hte : e.toolEvents with
            | some evs =>
              rw [hte] at hT
              have hlen := of_decide_eq_true hT
              exact List.length_pos.mp hlen
            | none =>
              rw [hte] at hT
              exact absurd hT (by decide)
          · exfalso
            apply hb
            rw [hC, hT]
            rfl
      by_cases hstr : e.isStreaming ≠ some true
      · rw [if_pos hstr]
        exact Or.inr ⟨e, rfl, hrole, hgood, hkeep⟩
      · rw [if_neg hstr]
        exact Or.inr ⟨_, rfl, hrole, hgood, hkeep⟩

theorem replayToolMsgs_length (conv : String) :
    ∀ (i : Nat) (ms : List ConversationMessageResponse),
      (replayToolMsgs conv i ms).length = ms.length := by
  intro i ms
  induction ms generalizing i with
  | nil => rfl
  | cons m rest ih =>
    simp only [replayToolMsgs, List.length_cons, ih]

theorem replayToolMsgs_map (conv : String) :
    ∀ (evs : List ToolEvent) (i : Nat), (∀ ev ∈ evs, Faithful ev) →
      List.Forall₂ toolEquiv (replayToolMsgs conv i (evs.map projectToolEvent)) evs := by
  intro evs
  induction evs with
  | nil =>
    intro i _
    exact List.Forall₂.nil
  | cons ev rest ih =>
    intro i h
    simp only [List.map_cons, replayToolMsgs]
    exact List.Forall₂.cons (h ev (by simp) conv i) (ih (i + 1) (fun x hx => h x (by simp [hx])))

theorem buildLoop_tool_run (conv : String) :
    ∀ (tms : List ConversationMessageResponse) (i : Nat)
      (rest : List ConversationMessageResponse)
      (entries : List MessageEntry) (pending : List ToolEvent),
      (∀ m ∈ tms, m.kind = .tool) →
      buildLoop conv i (tms ++ rest) entries pending =
        buildLoop conv (i + tms.length) rest entries (pending ++ replayToolMsgs conv i tms) := by
  intro tms
  induction tms with
  | nil =>
    intro i rest entries pending _
    simp [replayToolMsgs]
  | cons m rest0 ih =>
    intro i rest entries pending h
    have hm : m.kind = .tool := h m (by simp)
    simp only [List.cons_append, buildLoop]
    have hstep : buildStep conv i m entries pending =
        (entries, pending ++ [replayToolMsg conv i m]) := by
      unfold buildStep
      rw [if_pos (Or.inl hm)]
    rw [hstep]
    dsimp only
    simp only [List.append_eq]
    rw [ih (i + 1) rest entries (pending ++ [replayToolMsg conv i m])
      (fun x hx => h x (by simp [hx]))]
    simp only [replayToolMsgs, List.length_cons, List.append_assoc, List.cons_append,
      List.nil_append]
    have hi : i + 1 + rest0.length = i + (rest0.length + 1) := by omega
    rw [hi]

theorem buildStep_assistant_row (conv : String) (k : Nat) (content : String)
    (P : List ToolEvent) :
    buildStep conv k
      { kind := .message, role := .assistant, content := content,
        tool_name := none, tool_status := none, tool_call_id := none,
        tool_input := .undef, tool_output := .undef } [] P =
      ([{ id := conv ++ "-" ++ Nat.repr k
          role := .assistant
          content := jsTrim content
          isStreaming := some false
          toolEvents := if P.length > 0 then some P else none }], []) := rfl

theorem buildDetail_eq_filter (conv : String) (msgs : List ConversationMessageResponse)
    (E0 : MessageEntry) (hloop : buildLoop conv 0 msgs [] [] = ([E0], [])) :
    buildChatEntriesFromDetail conv msgs =
      List.filter (fun entry =>
        !(entry.role == Role.assistant) ||
        decide ((jsTrim entry.content).length > 0) ||
        decide ((match entry.toolEvents with
                 | some evs => evs.length
                 | none => 0) > 0)) [E0] := by
  unfold buildChatEntriesFromDetail
  rw [hloop]
  rfl

theorem filter_keep_single (E : MessageEntry)
    (h : (jsTrim E.content).length > 0 ∨
         (match E.toolEvents with | some evs => evs.length | none => 0) > 0) :
    List.filter (fun entry =>
        !(entry.role == Role.assistant) ||
        decide ((jsTrim entry.content).length > 0) ||
        decide ((match entry.toolEvents with
                 | some evs => evs.length
                 | none => 0) > 0)) [E] = [E] := by
  have hcond : (!(E.role == Role.assistant) ||
      decide ((jsTrim E.content).length > 0) ||
      decide ((match E.toolEvents with
               | some evs => evs.length
               | none => 0) > 0)) = true := by
    rcases h with h | h
    · simp [h]
    · simp [h]
  simp [List.filter_singleton, hcond]

theorem buildDetail_assistant (conv : String) (content : String) (pevs : List ToolEvent)
    (hf : ∀ ev ∈ pevs, Faithful ev)
    (hkeep : (jsTrim content).length > 0 ∨ pevs ≠ []) :
    ∃ E, buildChatEntriesFromDetail conv
        (pevs.map projectToolEvent ++
         [{ kind := .message, role := .assistant, content := content,
            tool_name := none, tool_status := none, tool_call_id := none,
            tool_input := .undef, tool_output := .undef }]) = [E] ∧
      E.role = .assistant ∧ jsTrim E.content = jsTrim content ∧
      List.Forall₂ toolEquiv
        (match E.toolEvents with | some evs => evs | none => ([] : List ToolEvent)) pevs := by
  have hkinds : ∀ m ∈ pevs.map projectToolEvent, m.kind = MsgKind.tool := by
    intro m hm
    rcases List.mem_map.mp hm with ⟨ev, _, rfl⟩
    rfl
  have hPlen : (replayToolMsgs conv 0 (pevs.map projectToolEvent)).length = pevs.length := by
    rw [replayToolMsgs_length, List.length_map]
  have hloop : buildLoop conv 0
      (pevs.map projectToolEvent ++
       [{ kind := .message, role := .assistant, content := content,
          tool_name := none, tool_status := none, tool_call_id := none,
          tool_input := .undef, tool_output := .undef }]) [] [] =
      ([{ id := conv ++ "-" ++ Nat.repr pevs.length
          role := .assistant
          content := jsTrim content
          isStreaming := some false
          toolEvents :=
            if (replayToolMsgs conv 0 (pevs.map projectToolEvent)).length > 0 then
              some (replayToolMsgs conv 0 (pevs.map projectToolEvent))
            else none }], []) := by
    rw [buildLoop_tool_run conv (pevs.map projectToolEvent) 0 _ [] [] hkinds]
    simp only [List.nil_append, List.length_map, Nat.zero_add]
    simp only [buildLoop, buildStep_assistant_row]
  have h1 := buildDetail_eq_filter conv _ _ hloop
  by_cases hne : pevs = []
  · subst hne
    have hc : (jsTrim content).length > 0 := by
      rcases hkeep with h | h
      · exact h
      · exact absurd rfl h
    rw [h1, filter_keep_single _ (Or.inl (by simpa [jsTrim_idem] using hc))]
    refine ⟨_, rfl, rfl, jsTrim_idem _, ?_⟩
    exact List.Forall₂.nil
  · have hPpos : (replayToolMsgs conv 0 (pevs.map projectToolEvent)).length > 0 := by
      rw [hPlen]
      exact List.length_pos.mpr hne
    rw [h1, filter_keep_single _ (Or.inr (by dsimp only; rw [if_pos hPpos]; exact hPpos))]
    refine ⟨_, rfl, rfl, jsTrim_idem _, ?_⟩
    dsimp only
    rw [if_pos hPpos]
    exact replayToolMsgs_map conv pevs 0 hf

theorem replay_single (conv : String) (e : MessageEntry) (hrole : e.role = .assistant)
    (hgood : ∀ ev ∈ (match e.toolEvents with
                     | some evs => evs
                     | none => ([] : List ToolEvent)), GoodEvent ev)
    (hkeep : (jsTrim e.content).length > 0 ∨
      (match e.toolEvents with
       | some evs => evs
       | none => ([] : List ToolEvent)) ≠ []) :
    transcriptEquiv (buildChatEntriesFromDetail conv (projectTranscript [e])) [e] := by
  have hproj : projectTranscript [e] =
      (match e.toolEvents with
       | some evs => evs
       | none => ([] : List ToolEvent)).map projectToolEvent ++
      [{ kind := .message, role := .assistant, content := e.content,
         tool_name := none, tool_status := none, tool_call_id := none,
         tool_input := .undef, tool_output := .undef }] := by
    simp only [projectTranscript, projectEntry, hrole]
    rw [List.append_nil]
  have hf : ∀ ev ∈ (match e.toolEvents with
      | some evs => evs
      | none => ([] : List ToolEvent)), Faithful ev :=
    fun ev hev => goodEvent_faithful ev (hgood ev hev)
  obtain ⟨E, hE, hErole, hEcontent, hEforall⟩ :=
    buildDetail_assistant conv e.content
      (match e.toolEvents with
       | some evs => evs
       | none => ([] : List ToolEvent)) hf hkeep
  rw [hproj, hE]
  refine List.Forall₂.cons ⟨?_, ?_, ?_⟩ List.Forall₂.nil
  · rw [hErole, hrole]
  · exact hEcontent
  · exact hEforall

/-- C1 (amended property): for every done-terminated server-event sequence
whose tool payloads are coerce-stable and whose error messages are
non-empty, replaying the persisted projection of the live transcript
rebuilds it up to ids, `isStreaming`, content trimming, an absent versus
empty tool-event list, and the headline of error events. -/
theorem roundtrip_spec (aid conv c : String) (es : List ServerEvent)
    (h : ∀ e ∈ es, eventOk e) :
    transcriptEquiv
      (buildChatEntriesFromDetail conv
        (projectTranscript (runLive aid (es ++ [.done c]))))
      (runLive aid (es ++ [.done c])) := by
  have hinv : ReducerInv aid (runLive aid es) := runLive_inv aid es h
  rw [runLive_append_done]
  rcases done_state aid ("live-" ++ Nat.repr es.length) c (runLive aid es) hinv with
    hnil | ⟨e, he, hrole, hgood, hkeep⟩
  · rw [hnil]
    exact List.Forall₂.nil
  · rw [he]
    exact replay_single conv e hrole hgood hkeep

/-- C1 (counterexample to the literal claim): after a lone
`final_response " Hello "` the live transcript stores the untrimmed text
while the replay builder trims assistant content, so the round trip is not
structural equality up to `id` and `isStreaming` alone. -/
theorem roundtrip_counterexample :
    ¬ transcriptEqMod
      (buildChatEntriesFromDetail "c"
        (projectTranscript (runLive "a" [.final_response " Hello " "x"])))
      (runLive "a" [.final_response " Hello " "x"]) := by
  intro h
  have hR : runLive "a" [.final_response " Hello " "x"] =
      [{ id := "a", role := .assistant, content := " Hello ",
         isStreaming := some false, toolEvents := some [] }] := rfl
  have hL : buildChatEntriesFromDetail "c"
      (projectTranscript (runLive "a" [.final_response " Hello " "x"])) =
      [{ id := "c-0", role := .assistant, content := "Hello",
         isStreaming := some false, toolEvents := none }] := rfl
  rw [hL, hR] at h
  rcases h with _ | ⟨h1, -⟩
  exact absurd h1.2.1 (by decide)

/-- Closed witness instantiating the amended round-trip theorem on a
concrete event sequence with all side conditions discharged. -/
theorem roundtrip_spec_witness :
    (∀ e ∈ [ServerEvent.response_chunk "Hi" "x",
            ServerEvent.tool_call "t" (Value.str "abc") "x",
            ServerEvent.tool_result "t" (Value.num 5) "x"], eventOk e) ∧
    transcriptEquiv
      (buildChatEntriesFromDetail "conv"
        (projectTranscript (runLive "aid"
          ([ServerEvent.response_chunk "Hi" "x",
            ServerEvent.tool_call "t" (Value.str "abc") "x",
            ServerEvent.tool_result "t" (Value.num 5) "x"] ++ [.done "end"]))))
      (runLive "aid"
        ([ServerEvent.response_chunk "Hi" "x",
          ServerEvent.tool_call "t" (Value.str "abc") "x",
          ServerEvent.tool_result "t" (Value.num 5) "x"] ++ [.done "end"])) := by
  have hok : ∀ e ∈ [ServerEvent.response_chunk "Hi" "x",
      ServerEvent.tool_call "t" (Value.str "abc") "x",
      ServerEvent.tool_result "t" (Value.num 5) "x"], eventOk e := by
    intro e he
    rcases List.mem_cons.mp he with rfl | he
    · exact trivial
    rcases List.mem_cons.mp he with rfl | he
    · exact rfl
    rcases List.mem_cons.mp he with rfl | he
    · exact rfl
    · exact absurd he (List.not_mem_nil e)
  exact ⟨hok, roundtrip_spec "aid" "conv" "end" _ hok⟩
